import Mathlib

set_option maxRecDepth 8192

-- Verification of the weather MCP server (src/server.py).
--
-- The development shallowly embeds the three tool functions
-- (get_current_weather, get_forecast, get_location), the fetch helper
-- make_openmeteo_request, and the parts of their runtime they observably
-- depend on: Python's json module (json.dumps with its default separators
-- and ensure_ascii escaping, and json.loads as used by response.json()),
-- Python truthiness of decoded JSON values, and the HTTP layer as an
-- oracle mapping each URL to either a status/body response or a raised
-- transport error.
--
-- Modelling notes, stated once here:
-- * Python floats appearing as tool arguments are modelled by their
--   str() rendering (structure PyFloat), which is all the code observes
--   of them (they are only interpolated into URLs).
-- * JSON numbers are modelled exactly as scaled decimals
--   (mantissa, fracDigits), covering Python ints (fracDigits = 0) and
--   finite floats in positional decimal notation. The NaN/Infinity
--   extensions of Python's json and exponent-notation float repr for
--   very large magnitudes are outside the model.
-- * json.loads builds dicts, so a duplicate object key keeps its first
--   position and takes its last value; dedupPairs below mirrors that.
-- * The parser is total via a fuel argument; exhausting fuel yields
--   none, matching the RecursionError that CPython raises (and
--   make_openmeteo_request catches) on pathologically nested bodies.

namespace WeatherServer

-- ### Characters and digit strings

def wsChar (c : Char) : Bool :=
  c.toNat = 32 || c.toNat = 9 || c.toNat = 10 || c.toNat = 13

def digitChar (c : Char) : Bool :=
  48 ≤ c.toNat && c.toNat ≤ 57

def chOfDigit (k : Nat) : Char := Char.ofNat (48 + k)

/-- Worker for natChars, structural on a fuel bound that dominates n. -/
def natCharsAux : Nat → Nat → List Char
  | 0, n => [chOfDigit n]
  | fuel + 1, n =>
    if n < 10 then [chOfDigit n] else natCharsAux fuel (n / 10) ++ [chOfDigit (n % 10)]

/-- Decimal digit characters of a natural number, most significant first. -/
def natChars (n : Nat) : List Char := natCharsAux n n

/-- Characters of str(int) in Python: optional minus sign, then digits. -/
def intChars (m : Int) : List Char :=
  if m < 0 then '-' :: natChars m.natAbs else natChars m.natAbs

/-- Numeric value of a digit run (digits are most significant first). -/
def digitsVal (ds : List Char) : Nat :=
  ds.foldl (fun a c => a * 10 + (c.toNat - 48)) 0

def chOfHex (k : Nat) : Char :=
  if k < 10 then chOfDigit k else Char.ofNat (87 + k)

/-- Four lowercase hex digits of n, as emitted by the \uXXXX escapes of
json.dumps with ensure_ascii. -/
def hex4 (n : Nat) : List Char :=
  [chOfHex (n / 4096 % 16), chOfHex (n / 256 % 16), chOfHex (n / 16 % 16), chOfHex (n % 16)]

def hexDigitVal (c : Char) : Option Nat :=
  if 48 ≤ c.toNat ∧ c.toNat ≤ 57 then some (c.toNat - 48)
  else if 97 ≤ c.toNat ∧ c.toNat ≤ 102 then some (c.toNat - 87)
  else if 65 ≤ c.toNat ∧ c.toNat ≤ 70 then some (c.toNat - 55)
  else none

-- ### The JSON value domain

/-- A decoded JSON value as Python's json module produces it. A num with
fracDigits = 0 is a Python int; with fracDigits = e > 0 it is the float
written as mantissa scaled by 10^(-e) in positional decimal notation. -/
inductive Json where
  | null
  | bool (b : Bool)
  | num (mantissa : Int) (fracDigits : Nat)
  | str (sv : String)
  | arr (items : List Json)
  | obj (pairs : List (String × Json))

-- ### Serialization: json.dumps with default arguments

/-- Rendering of one number by json.dumps: repr(int), or the positional
decimal repr of a float (fracDigits many digits after the point). -/
def numChars (m : Int) (e : Nat) : List Char :=
  if e = 0 then intChars m
  else
    let ds0 := natChars m.natAbs
    let ds := List.replicate (e + 1 - ds0.length) '0' ++ ds0
    (if m < 0 then ['-'] else []) ++ ds.take (ds.length - e) ++ '.' :: ds.drop (ds.length - e)

/-- The escape of one character under ensure_ascii=True: short escapes for
the two JSON metacharacters and the five named controls, \u00XX for other
controls, the character itself for printable ASCII, and \uXXXX (with a
surrogate pair beyond the BMP) for everything non-ASCII. -/
def escChar (c : Char) : List Char :=
  if c.toNat = 34 then ['\\', '"']
  else if c.toNat = 92 then ['\\', '\\']
  else if c.toNat = 8 then ['\\', 'b']
  else if c.toNat = 9 then ['\\', 't']
  else if c.toNat = 10 then ['\\', 'n']
  else if c.toNat = 12 then ['\\', 'f']
  else if c.toNat = 13 then ['\\', 'r']
  else if c.toNat < 32 then '\\' :: 'u' :: hex4 c.toNat
  else if c.toNat < 127 then [c]
  else if c.toNat < 65536 then '\\' :: 'u' :: hex4 c.toNat
  else
    '\\' :: 'u' :: hex4 (55296 + (c.toNat - 65536) / 1024)
      ++ '\\' :: 'u' :: hex4 (56320 + (c.toNat - 65536) % 1024)

def escBody : List Char → List Char
  | [] => []
  | c :: cs => escChar c ++ escBody cs

mutual
/-- json.dumps as a character list. Default separators: item separator
comma-space, key separator colon-space. -/
def dumpsL : Json → List Char
  | .null => 'n' :: ['u', 'l', 'l']
  | .bool true => 't' :: ['r', 'u', 'e']
  | .bool false => 'f' :: ['a', 'l', 's', 'e']
  | .num m e => numChars m e
  | .str s => '"' :: (escBody s.data ++ ['"'])
  | .arr es => '[' :: (dumpsElems es ++ [']'])
  | .obj ms => '{' :: (dumpsMembers ms ++ ['}'])
def dumpsElems : List Json → List Char
  | [] => []
  | e :: es => dumpsL e ++ dumpsElemsTail es
def dumpsElemsTail : List Json → List Char
  | [] => []
  | e :: es => ',' :: ' ' :: (dumpsL e ++ dumpsElemsTail es)
def dumpsMembers : List (String × Json) → List Char
  | (key, val) :: ms =>
    '"' :: (escBody key.data ++ '"' :: ':' :: ' ' :: (dumpsL val ++ dumpsMembersTail ms))
  | [] => []
def dumpsMembersTail : List (String × Json) → List Char
  | (key, val) :: ms =>
    ',' :: ' ' :: '"' :: (escBody key.data ++ '"' :: ':' :: ' ' :: (dumpsL val ++ dumpsMembersTail ms))
  | [] => []
end

/-- json.dumps(data) with default arguments, as a String. -/
def Json.dumps (j : Json) : String := String.mk (dumpsL j)

-- ### Parsing: json.loads as invoked by response.json()

def skipWs : List Char → List Char
  | [] => []
  | c :: cs => if wsChar c then skipWs cs else c :: cs

/-- Longest digit run at the head of the input, and the remainder. -/
def digitSpan : List Char → List Char × List Char
  | [] => ([], [])
  | c :: cs =>
    if digitChar c then
      let p := digitSpan cs
      (c :: p.1, p.2)
    else ([], c :: cs)

def shortEsc (c : Char) : Option Char :=
  if c.toNat = 34 then some '"'
  else if c.toNat = 92 then some '\\'
  else if c.toNat = 47 then some '/'
  else if c.toNat = 98 then some (Char.ofNat 8)
  else if c.toNat = 116 then some (Char.ofNat 9)
  else if c.toNat = 110 then some (Char.ofNat 10)
  else if c.toNat = 102 then some (Char.ofNat 12)
  else if c.toNat = 114 then some (Char.ofNat 13)
  else none

/-- Decoding of the characters following a backslash: a short escape, or a
\uXXXX escape including a following low-surrogate escape when the first
escape is a high surrogate. Returns the decoded character and the
remainder. A lone surrogate escape is rejected (a Lean Char cannot carry
one; CPython would keep it). -/
def decodeEscape : List Char → Option (Char × List Char)
  | [] => none
  | e :: r =>
    if e.toNat = 117 then
      match r with
      | a :: b :: c :: d :: r2 =>
        match hexDigitVal a, hexDigitVal b, hexDigitVal c, hexDigitVal d with
        | some va, some vb, some vc, some vd =>
          let n := va * 4096 + vb * 256 + vc * 16 + vd
          if 55296 ≤ n ∧ n ≤ 56319 then
            match r2 with
            | s1 :: s2 :: a2 :: b2 :: c2 :: d2 :: r3 =>
              if s1.toNat = 92 ∧ s2.toNat = 117 then
                match hexDigitVal a2, hexDigitVal b2, hexDigitVal c2, hexDigitVal d2 with
                | some wa, some wb, some wc, some wd =>
                  let p := wa * 4096 + wb * 256 + wc * 16 + wd
                  if 56320 ≤ p ∧ p ≤ 57343 then
                    some (Char.ofNat (65536 + (n - 55296) * 1024 + (p - 56320)), r3)
                  else none
                | _, _, _, _ => none
              else none
            | _ => none
          else if 56320 ≤ n ∧ n ≤ 57343 then none
          else some (Char.ofNat n, r2)
        | _, _, _, _ => none
      | _ => none
    else
      match shortEsc e with
      | some d => some (d, r)
      | none => none

/-- String-body scanner (after the opening quote): strict about raw control
characters, decodes escapes via decodeEscape. Structural on a fuel bound
(one unit per decoded character). -/
def scanString : Nat → List Char → List Char → Option (String × List Char)
  | 0, _, _ => none
  | fuel + 1, acc, l =>
    match l with
    | [] => none
    | c :: r =>
      if c.toNat = 34 then some (String.mk acc, r)
      else if c.toNat = 92 then
        match decodeEscape r with
        | some (d, r2) => scanString fuel (acc ++ [d]) r2
        | none => none
      else if 32 ≤ c.toNat then scanString fuel (acc ++ [c]) r
      else none


def signedOf (neg : Bool) (n : Nat) : Int :=
  if neg then -(n : Int) else (n : Int)

/-- Result of a number with an exponent part: always a Python float. The
decimal value mantissa*10^(z - fracLen) is renormalized into the scaled
decimal (num) form of the model. -/
def numOfExp (neg : Bool) (ds : List Char) (fracLen : Nat) (z : Int) : Json :=
  let t : Int := z - (fracLen : Int)
  if 0 ≤ t then .num (signedOf neg (digitsVal ds) * 10 ^ t.toNat * 10) 1
  else .num (signedOf neg (digitsVal ds)) (-t).toNat

/-- Exponent characters after the e or E: optional sign and a nonempty digit
run (leading zeros allowed there by the JSON grammar). -/
def scanExp (neg : Bool) (ds : List Char) (fracLen : Nat) (l : List Char) :
    Option (Json × List Char) :=
  let sgn : Bool × List Char :=
    match l with
    | '+' :: t => (false, t)
    | '-' :: t => (true, t)
    | _ => (false, l)
  match digitSpan sgn.2 with
  | ([], _) => none
  | (eds, r) =>
    let zm : Int := (digitsVal eds : Int)
    some (numOfExp neg ds fracLen (if sgn.1 then -zm else zm), r)

/-- The unsigned tail of a JSON number: integer part with the leading-zero
restriction, optional fraction, optional exponent. Integer-valued literals
without a fraction or exponent give Python ints; the others give floats. -/
def scanNumCore (neg : Bool) (l1 : List Char) : Option (Json × List Char) :=
  match digitSpan l1 with
  | ([], _) => none
  | (d :: ds, r1) =>
    if d.toNat = 48 ∧ ds ≠ [] then none
    else
      match r1 with
      | '.' :: r2 =>
        match digitSpan r2 with
        | ([], _) => none
        | (fs, r3) =>
          match r3 with
          | 'e' :: r4 => scanExp neg (d :: ds ++ fs) fs.length r4
          | 'E' :: r4 => scanExp neg (d :: ds ++ fs) fs.length r4
          | _ => some (.num (signedOf neg (digitsVal (d :: ds ++ fs))) fs.length, r3)
      | 'e' :: r2 => scanExp neg (d :: ds) 0 r2
      | 'E' :: r2 => scanExp neg (d :: ds) 0 r2
      | _ => some (.num (signedOf neg (digitsVal (d :: ds))) 0, r1)

/-- One JSON number: optional minus sign, then the unsigned tail. -/
def scanNumber (l : List Char) : Option (Json × List Char) :=
  match l with
  | '-' :: t => scanNumCore true t
  | _ => scanNumCore false l

/-- Insertion of one key into an association list with dict semantics: an
existing key keeps its position and takes the new value, a new key goes to
the end. -/
def insertPair : List (String × Json) → String → Json → List (String × Json)
  | [], k, v => [(k, v)]
  | (k0, v0) :: rest, k, v =>
    if k0 = k then (k0, v) :: rest else (k0, v0) :: insertPair rest k v

/-- Folding a parsed member list into a Python dict: later duplicates of a
key overwrite its value in place. -/
def dedupPairs (ms : List (String × Json)) : List (String × Json) :=
  ms.foldl (fun acc kv => insertPair acc kv.1 kv.2) []

mutual
/-- One JSON value at the head of the input (after optional whitespace),
plus the unconsumed remainder. Structural on fuel. -/
def parseValue : Nat → List Char → Option (Json × List Char)
  | 0, _ => none
  | fuel + 1, l =>
    match skipWs l with
    | 'n' :: 'u' :: 'l' :: 'l' :: u => some (.null, u)
    | 't' :: 'r' :: 'u' :: 'e' :: u => some (.bool true, u)
    | 'f' :: 'a' :: 'l' :: 's' :: 'e' :: u => some (.bool false, u)
    | '"' :: r =>
      match scanString (fuel + 1) [] r with
      | some (s, r2) => some (.str s, r2)
      | none => none
    | '[' :: r =>
      match skipWs r with
      | ']' :: r2 => some (.arr [], r2)
      | l2 =>
        match parseElems fuel l2 with
        | some (es, r2) => some (.arr es, r2)
        | none => none
    | '{' :: r =>
      match skipWs r with
      | '}' :: r2 => some (.obj [], r2)
      | l2 =>
        match parseMems fuel l2 with
        | some (ms, r2) => some (.obj (dedupPairs ms), r2)
        | none => none
    | c :: rest =>
      if c.toNat = 45 || digitChar c then scanNumber (c :: rest) else none
    | [] => none
/-- One or more comma-separated array elements followed by the closing
bracket (the empty array is handled by the caller). -/
def parseElems : Nat → List Char → Option (List Json × List Char)
  | 0, _ => none
  | fuel + 1, l =>
    match parseValue fuel l with
    | some (v, r) =>
      match skipWs r with
      | ',' :: r2 =>
        match parseElems fuel r2 with
        | some (vs, r3) => some (v :: vs, r3)
        | none => none
      | ']' :: r2 => some ([v], r2)
      | _ => none
    | none => none
/-- One or more comma-separated members followed by the closing brace (the
empty object is handled by the caller). Keys must be strings. -/
def parseMems : Nat → List Char → Option (List (String × Json) × List Char)
  | 0, _ => none
  | fuel + 1, l =>
    match skipWs l with
    | '"' :: r =>
      match scanString (fuel + 1) [] r with
      | some (k, r1) =>
        match skipWs r1 with
        | ':' :: r2 =>
          match parseValue fuel r2 with
          | some (v, r3) =>
            match skipWs r3 with
            | ',' :: r4 =>
              match parseMems fuel r4 with
              | some (ms, r5) => some ((k, v) :: ms, r5)
              | none => none
            | '}' :: r4 => some ([(k, v)], r4)
            | _ => none
          | none => none
        | _ => none
      | none => none
    | _ => none
end

/-- A remainder that cannot extend a preceding number literal: empty, or
headed by a character that is no digit and none of the period, e, E. The
JSON delimiters comma, right bracket, right brace and end of input all
qualify. -/
def numStop : List Char → Bool
  | [] => true
  | c :: _ => !(digitChar c || c.toNat = 46 || c.toNat = 101 || c.toNat = 69)

/-- json.loads: one document, with only whitespace allowed after it. -/
def Json.parse (s : String) : Option Json :=
  match parseValue (s.data.length + 1) s.data with
  | some (j, r) => if skipWs r = [] then some j else none
  | none => none

-- ### Truthiness of decoded values (Python bool())

/-- Python truthiness of a decoded JSON value: None, False, numeric zero,
and the empty string/list/dict are falsy, everything else truthy. -/
def Json.truthy : Json → Bool
  | .null => false
  | .bool b => b
  | .num m _ => decide (m ≠ 0)
  | .str s => !s.data.isEmpty
  | .arr es => !es.isEmpty
  | .obj ms => !ms.isEmpty

def keysFresh : List String → Bool
  | [] => true
  | k :: ks => !ks.contains k && keysFresh ks

mutual
/-- Well-formedness characterizing values the decoder can produce: every
object has pairwise distinct keys. -/
def Json.wf : Json → Bool
  | .null => true
  | .bool _ => true
  | .num _ _ => true
  | .str _ => true
  | .arr es => wfElems es
  | .obj ms => keysFresh (ms.map Prod.fst) && wfMems ms
def wfElems : List Json → Bool
  | [] => true
  | e :: es => e.wf && wfElems es
def wfMems : List (String × Json) → Bool
  | [] => true
  | (_k, v) :: ms => v.wf && wfMems ms
end

-- ### The server (src/server.py)

def WEATHER_OPENMETEO_API_BASE : String := "https://api.open-meteo.com/v1"
def GEOCODING_OPENMATEO_API_BASE : String := "https://geocoding-api.open-meteo.com/v1"
def USER_AGENT : String := "weather-app/1.0"

/-- A Python float argument, observed only through its str() rendering
(the code interpolates it into a URL and does nothing else with it). -/
structure PyFloat where
  str : String

/-- What awaiting client.get(url) followed by raise_for_status() can
surface: a response with a status code and a body, or a raised transport
error (DNS failure, refused connection, timeout, ...). -/
inductive FetchOutcome where
  | response (status : Nat) (body : String)
  | transportError (message : String)

/-- The network as an oracle from the requested URL to its outcome. -/
def Network : Type := String → FetchOutcome

inductive LogLevel where
  | debug | info | warning | error | critical
deriving DecidableEq

structure LogEvent where
  level : LogLevel
  format : String
deriving DecidableEq

/-- The single logger.error emission of the except branch (the formatted
exception argument is abstracted away; only the level and the format
string are modelled). -/
def requestFailedEvent : LogEvent :=
  { level := LogLevel.error, format := "Open-Meteo request failed: %s" }

/-- make_openmeteo_request: GET the URL, raise_for_status (httpx raises
HTTPStatusError for every response whose status is not a 2xx success,
including 1xx and 3xx), then parse the body; every raised exception is
caught, logged at error severity, and turned into None. First component:
the returned value; second: the emitted log events. -/
def make_openmeteo_request (outcome : FetchOutcome) : Option Json × List LogEvent :=
  match outcome with
  | .transportError _ => (none, [requestFailedEvent])
  | .response status body =>
    if 200 ≤ status ∧ status < 300 then
      match Json.parse body with
      | some j => (some j, [])
      | none => (none, [requestFailedEvent])
    else (none, [requestFailedEvent])

def buildCurrentWeatherUrl (latitude longitude : PyFloat) : String :=
  WEATHER_OPENMETEO_API_BASE ++ "/forecast?latitude=" ++ latitude.str ++ "&longitude=" ++ longitude.str ++ "&current=temperature_2m,is_day,showers,cloud_cover,wind_speed_10m,wind_direction_10m,pressure_msl,snowfall,precipitation,relative_humidity_2m,apparent_temperature,rain,weather_code,surface_pressure,wind_gusts_10m"

def buildForecastUrl (latitude longitude : PyFloat) (days : Int) : String :=
  WEATHER_OPENMETEO_API_BASE ++ "/forecast?latitude=" ++ latitude.str ++ "&longitude=" ++ longitude.str ++ "&forecast_days=" ++ toString days ++ "&daily=temperature_2m_max,temperature_2m_min,precipitation_sum,rain_sum,snowfall_sum,wind_speed_10m_max,wind_gusts_10m_max,wind_direction_10m_dominant,weathercode,sunrise,sunset&timezone=auto"

def buildLocationUrl (search_term : String) (count : Int) : String :=
  GEOCODING_OPENMATEO_API_BASE ++ "/search?name=" ++ search_term ++ "&count=" ++ toString count

def currentWeatherFailText : String :=
  "Unable to fetch current weather data for this location."

def forecastFailText : String :=
  "Unable to fetch forecasted weather data for this location."

/-- get_current_weather: build the URL, fetch, and return json.dumps(data)
unless the result is absent or falsy (the code guards with `if not data`). -/
def get_current_weather (net : Network) (latitude longitude : PyFloat) : String :=
  match (make_openmeteo_request (net (buildCurrentWeatherUrl latitude longitude))).1 with
  | none => currentWeatherFailText
  | some data => if data.truthy then Json.dumps data else currentWeatherFailText

/-- get_forecast, with the days parameter explicit (its Python default is
recorded as defaultForecastDays below). -/
def get_forecast (net : Network) (latitude longitude : PyFloat) (days : Int) : String :=
  match (make_openmeteo_request (net (buildForecastUrl latitude longitude days))).1 with
  | none => forecastFailText
  | some data => if data.truthy then Json.dumps data else forecastFailText

/-- get_location, with the count parameter explicit (its Python default is
recorded as defaultLocationCount below). -/
def get_location (net : Network) (search_term : String) (count : Int) : String :=
  match (make_openmeteo_request (net (buildLocationUrl search_term count))).1 with
  | none => "Unable to fetch location data for " ++ search_term
  | some data => if data.truthy then Json.dumps data else "Unable to fetch location data for " ++ search_term

def defaultForecastDays : Int := 7

def defaultLocationCount : Int := 10

/-- A call of get_forecast that omits days, as in get_forecast(0, 0). -/
def get_forecast_defaulted (net : Network) (latitude longitude : PyFloat) : String :=
  get_forecast net latitude longitude defaultForecastDays

/-- A call of get_location that omits count. -/
def get_location_defaulted (net : Network) (search_term : String) : String :=
  get_location net search_term defaultLocationCount

-- ### Field lists of the two weather query URLs

/-- The current-conditions fields requested by get_current_weather, in the
order they appear in the URL on line 41 of server.py. -/
def currentWeatherFields : List String :=
  ["temperature_2m", "is_day", "showers", "cloud_cover", "wind_speed_10m",
   "wind_direction_10m", "pressure_msl", "snowfall", "precipitation",
   "relative_humidity_2m", "apparent_temperature", "rain", "weather_code",
   "surface_pressure", "wind_gusts_10m"]

/-- The daily aggregate fields requested by get_forecast, in the order they
appear in the URL on line 60 of server.py. -/
def forecastDailyFields : List String :=
  ["temperature_2m_max", "temperature_2m_min", "precipitation_sum", "rain_sum",
   "snowfall_sum", "wind_speed_10m_max", "wind_gusts_10m_max",
   "wind_direction_10m_dominant", "weathercode", "sunrise", "sunset"]

-- ### Stubbed networks used by witnesses and counterexamples

/-- A network on which every request raises a transport error. -/
def failNet : Network := fun _ => FetchOutcome.transportError "connection refused"

/-- A network on which every request succeeds with the body of the spec's
get_current_weather scenario. -/
def berlinNet : Network :=
  fun _ => FetchOutcome.response 200 "\x7b\"current\": \x7b\"temperature_2m\": 18.3\x7d\x7d"

/-- The decoded value of berlinNet's response body. -/
def berlinJson : Json :=
  Json.obj [("current", Json.obj [("temperature_2m", Json.num 183 1)])]

/-- A network on which every request succeeds with the empty JSON object. -/
def emptyObjNet : Network := fun _ => FetchOutcome.response 200 "\x7b\x7d"

-- ### Shared shape lemma for the three tool adapters

/-- Common case analysis of the adapter tail shared by all three tools:
the result is the failure text, or the fetch produced a truthy value and
the result is its serialization. -/
theorem adapterShape (o : Option Json) (t : String) :
    (match o with
     | none => t
     | some data => if data.truthy then Json.dumps data else t) = t
    ∨ ∃ j, o = some j ∧ j.truthy = true ∧
        (match o with
         | none => t
         | some data => if data.truthy then Json.dumps data else t) = Json.dumps j := by
  cases o with
  | none => exact Or.inl rfl
  | some d =>
    by_cases h : d.truthy
    · exact Or.inr ⟨d, rfl, h, by simp [h]⟩
    · exact Or.inl (by simp [h])

-- ### Claim C2: fixed failure sentences when the fetch returns None

/-- C2: whenever the fetch helper returns the absence variant, each tool
returns its fixed, tool-specific failure sentence, with the location
sentence including the search term; in particular the stubbed
get_location("Nowhere12345xyz", 5) scenario returns exactly
"Unable to fetch location data for Nowhere12345xyz". -/
theorem spec_c2_failure_sentences :
    (∀ (net : Network) (lat lon : PyFloat),
      (make_openmeteo_request (net (buildCurrentWeatherUrl lat lon))).1 = none →
      get_current_weather net lat lon = "Unable to fetch current weather data for this location.")
    ∧ (∀ (net : Network) (lat lon : PyFloat) (days : Int),
      (make_openmeteo_request (net (buildForecastUrl lat lon days))).1 = none →
      get_forecast net lat lon days = "Unable to fetch forecasted weather data for this location.")
    ∧ (∀ (net : Network) (st : String) (count : Int),
      (make_openmeteo_request (net (buildLocationUrl st count))).1 = none →
      get_location net st count = "Unable to fetch location data for " ++ st)
    ∧ get_location failNet "Nowhere12345xyz" 5 = "Unable to fetch location data for Nowhere12345xyz" := by
  refine ⟨?_, ?_, ?_, rfl⟩
  · intro net lat lon h
    unfold get_current_weather
    rw [h]
    rfl
  · intro net lat lon days h
    unfold get_forecast
    rw [h]
    rfl
  · intro net st count h
    unfold get_location
    rw [h]

/-- Witness for C2 at a concrete stubbed transport failure. -/
theorem spec_c2_witness :
    get_current_weather failNet ⟨"52.52"⟩ ⟨"13.405"⟩
      = "Unable to fetch current weather data for this location." :=
  spec_c2_failure_sentences.1 failNet ⟨"52.52"⟩ ⟨"13.405"⟩ rfl

-- ### Claim C3: the fetch helper absorbs every failure

/-- C3: make_openmeteo_request never propagates an error: a raised
transport error, an HTTP error status (4xx/5xx), and an unparsable body
each produce the absence variant together with one log event at error
severity, while a success status (2xx, the only region where
raise_for_status does not raise) with a well-formed JSON body produces
the parsed value and no log event. -/
theorem spec_c3_fetch_absorbs_failures :
    (∀ msg, make_openmeteo_request (.transportError msg) = (none, [requestFailedEvent]))
    ∧ (∀ status body, 400 ≤ status → status < 600 →
        make_openmeteo_request (.response status body) = (none, [requestFailedEvent]))
    ∧ (∀ status body j, 200 ≤ status → status < 300 → Json.parse body = some j →
        make_openmeteo_request (.response status body) = (some j, []))
    ∧ (∀ status body, Json.parse body = none →
        make_openmeteo_request (.response status body) = (none, [requestFailedEvent]))
    ∧ requestFailedEvent.level = LogLevel.error := by
  refine ⟨fun msg => rfl, ?_, ?_, ?_, rfl⟩
  · intro status body h1 h2
    simp only [make_openmeteo_request]
    rw [if_neg (by omega)]
  · intro status body j h1 h2 hp
    simp only [make_openmeteo_request]
    rw [if_pos ⟨h1, h2⟩, hp]
  · intro status body hp
    simp only [make_openmeteo_request]
    by_cases hs : 200 ≤ status ∧ status < 300
    · rw [if_pos hs, hp]
    · rw [if_neg hs]

/-- Witness for C3 at a stubbed 500, a stubbed parse success, and a
stubbed malformed body. -/
theorem spec_c3_witness :
    make_openmeteo_request (.response 500 "upstream broke")
      = (none, [requestFailedEvent])
    ∧ make_openmeteo_request (.response 200 "\x7b\x7d") = (some (Json.obj []), [])
    ∧ make_openmeteo_request (.response 200 "not json") = (none, [requestFailedEvent]) :=
  ⟨spec_c3_fetch_absorbs_failures.2.1 500 "upstream broke" (by decide) (by decide),
   spec_c3_fetch_absorbs_failures.2.2.1 200 "\x7b\x7d" (Json.obj [])
     (by decide) (by decide) rfl,
   spec_c3_fetch_absorbs_failures.2.2.2.1 200 "not json" rfl⟩

-- ### Claim C4 (corrected): the forecast URL and its daily field list

/-- C4 counterexample: the daily list embedded in the forecast URL has 11
fields, not the 10 the claim states. -/
theorem spec_c4_counterexample :
    buildForecastUrl ⟨"0"⟩ ⟨"0"⟩ 7
      = "https://api.open-meteo.com/v1/forecast?latitude=0&longitude=0&forecast_days=7&"
        ++ ("daily=" ++ String.intercalate "," forecastDailyFields) ++ "&timezone=auto"
    ∧ forecastDailyFields.length = 11
    ∧ ¬ forecastDailyFields.length = 10 := by
  refine ⟨by decide, by decide, by decide⟩

/-- C4 amended: for all latitude, longitude and days, the forecast URL is
the forecast base path followed by the coordinates, forecast_days=days,
the fixed 11-field daily list, and timezone=auto. -/
theorem spec_c4_forecast_url (lat lon : PyFloat) (days : Int) :
    buildForecastUrl lat lon days
      = WEATHER_OPENMETEO_API_BASE ++ "/forecast?"
        ++ ("latitude=" ++ lat.str ++ "&longitude=" ++ lon.str ++ "&")
        ++ ("forecast_days=" ++ toString days)
        ++ ("&" ++ ("daily=" ++ String.intercalate "," forecastDailyFields))
        ++ ("&" ++ "timezone=auto")
    ∧ forecastDailyFields.length = 11 := by
  constructor
  · unfold buildForecastUrl
    rw [show ("/forecast?latitude=" : String) = "/forecast?" ++ "latitude=" from by decide]
    rw [show ("&daily=temperature_2m_max,temperature_2m_min,precipitation_sum,rain_sum,snowfall_sum,wind_speed_10m_max,wind_gusts_10m_max,wind_direction_10m_dominant,weathercode,sunrise,sunset&timezone=auto" : String)
        = ("&" ++ ("daily=" ++ String.intercalate "," forecastDailyFields)) ++ ("&" ++ "timezone=auto") from by decide]
    rw [show ("&forecast_days=" : String) = "&" ++ "forecast_days=" from by decide]
    simp only [String.append_assoc]
  · decide

-- ### Claim C5: the current-weather URL and its 15-field current list

/-- C5: for all latitude and longitude, the current-weather URL is the
forecast base path followed by the coordinates and a current parameter
holding exactly the fixed 15-field list in its stable order. -/
theorem spec_c5_current_weather_url (lat lon : PyFloat) :
    buildCurrentWeatherUrl lat lon
      = WEATHER_OPENMETEO_API_BASE ++ "/forecast?"
        ++ ("latitude=" ++ lat.str ++ "&longitude=" ++ lon.str ++ "&")
        ++ ("current=" ++ String.intercalate "," currentWeatherFields)
    ∧ currentWeatherFields.length = 15 := by
  constructor
  · unfold buildCurrentWeatherUrl
    rw [show ("/forecast?latitude=" : String) = "/forecast?" ++ "latitude=" from by decide]
    rw [show ("&current=temperature_2m,is_day,showers,cloud_cover,wind_speed_10m,wind_direction_10m,pressure_msl,snowfall,precipitation,relative_humidity_2m,apparent_temperature,rain,weather_code,surface_pressure,wind_gusts_10m" : String)
        = "&" ++ ("current=" ++ String.intercalate "," currentWeatherFields) from by decide]
    simp only [String.append_assoc]
  · decide

-- ### Claim C6: the geocoding URL embeds the search term verbatim

/-- C6: for every search term and count, the location URL is the literal
concatenation of the geocoding base, "/search?name=", the search term
itself (no URL-encoding), "&count=" and the count; illustrated on a term
containing a space and a comma. -/
theorem spec_c6_location_url (search_term : String) (count : Int) :
    buildLocationUrl search_term count
      = GEOCODING_OPENMATEO_API_BASE ++ "/search?name=" ++ search_term
        ++ "&count=" ++ toString count
    ∧ GEOCODING_OPENMATEO_API_BASE = "https://geocoding-api.open-meteo.com/v1"
    ∧ buildLocationUrl "New York, NY" 3
        = "https://geocoding-api.open-meteo.com/v1/search?name=New York, NY&count=3" :=
  ⟨rfl, rfl, by decide⟩

-- ### Claim C7: every tool call terminates in a text value

/-- C7: for every network behavior and all parameters, each tool call
returns a text value along one of exactly two paths: its failure sentence,
or the serialization of a truthy fetched JSON value. No other outcome
(in particular no propagated error) exists in the model. -/
theorem spec_c7_tools_total :
    (∀ (net : Network) (lat lon : PyFloat),
      get_current_weather net lat lon = currentWeatherFailText
      ∨ ∃ j, (make_openmeteo_request (net (buildCurrentWeatherUrl lat lon))).1 = some j
          ∧ j.truthy = true ∧ get_current_weather net lat lon = Json.dumps j)
    ∧ (∀ (net : Network) (lat lon : PyFloat) (days : Int),
      get_forecast net lat lon days = forecastFailText
      ∨ ∃ j, (make_openmeteo_request (net (buildForecastUrl lat lon days))).1 = some j
          ∧ j.truthy = true ∧ get_forecast net lat lon days = Json.dumps j)
    ∧ (∀ (net : Network) (st : String) (count : Int),
      get_location net st count = "Unable to fetch location data for " ++ st
      ∨ ∃ j, (make_openmeteo_request (net (buildLocationUrl st count))).1 = some j
          ∧ j.truthy = true ∧ get_location net st count = Json.dumps j) := by
  refine ⟨?_, ?_, ?_⟩
  · intro net lat lon
    exact adapterShape ((make_openmeteo_request (net (buildCurrentWeatherUrl lat lon))).1) _
  · intro net lat lon days
    exact adapterShape ((make_openmeteo_request (net (buildForecastUrl lat lon days))).1) _
  · intro net st count
    exact adapterShape ((make_openmeteo_request (net (buildLocationUrl st count))).1) _

-- ### Claim C8 (corrected): serialized passthrough of fetched data

/-- C8 counterexample: the fetch can return data (here the decoded empty
object) while the tool returns its failure sentence instead of the
serialization of that data, because the  `if not data` guard also rejects
falsy decoded bodies; so the claim that delivered data is always returned
verbatim fails without a truthiness hypothesis. -/
theorem spec_c8_counterexample :
    (make_openmeteo_request (emptyObjNet (buildCurrentWeatherUrl ⟨"1"⟩ ⟨"2"⟩))).1
      = some (Json.obj [])
    ∧ get_current_weather emptyObjNet ⟨"1"⟩ ⟨"2"⟩ ≠ Json.dumps (Json.obj []) :=
  ⟨rfl, by decide⟩

/-- C8 (amended): whenever the fetch yields a JSON value that is truthy
(the condition under which the `if not data` guard lets it through), each
tool returns exactly json.dumps of that value with no re-shaping or
filtering; and the spec's stubbed get_current_weather(52.52, 13.405)
scenario returns the text of the stubbed body itself. -/
theorem spec_c8_verbatim_serialization :
    (∀ (net : Network) (lat lon : PyFloat) (j : Json),
      (make_openmeteo_request (net (buildCurrentWeatherUrl lat lon))).1 = some j →
      j.truthy = true → get_current_weather net lat lon = Json.dumps j)
    ∧ (∀ (net : Network) (lat lon : PyFloat) (days : Int) (j : Json),
      (make_openmeteo_request (net (buildForecastUrl lat lon days))).1 = some j →
      j.truthy = true → get_forecast net lat lon days = Json.dumps j)
    ∧ (∀ (net : Network) (st : String) (count : Int) (j : Json),
      (make_openmeteo_request (net (buildLocationUrl st count))).1 = some j →
      j.truthy = true → get_location net st count = Json.dumps j)
    ∧ get_current_weather berlinNet ⟨"52.52"⟩ ⟨"13.405"⟩
        = "\x7b\"current\": \x7b\"temperature_2m\": 18.3\x7d\x7d" := by
  refine ⟨?_, ?_, ?_, by rfl⟩
  · intro net lat lon j h ht
    unfold get_current_weather
    rw [h]
    simp [ht]
  · intro net lat lon days j h ht
    unfold get_forecast
    rw [h]
    simp [ht]
  · intro net st count j h ht
    unfold get_location
    rw [h]
    simp [ht]

/-- Witness for C8 at the stubbed Berlin scenario. -/
theorem spec_c8_witness :
    get_current_weather berlinNet ⟨"52.52"⟩ ⟨"13.405"⟩ = Json.dumps berlinJson :=
  spec_c8_verbatim_serialization.1 berlinNet ⟨"52.52"⟩ ⟨"13.405"⟩ berlinJson rfl rfl

-- ### Claim C9: the Python default arguments

/-- C9: omitting days in get_forecast uses 7 and omitting count in
get_location uses 10; with the default, get_forecast(0, 0) builds a URL
containing forecast_days=7. -/
theorem spec_c9_defaults :
    defaultForecastDays = 7 ∧ defaultLocationCount = 10
    ∧ (∀ (net : Network) (lat lon : PyFloat),
        get_forecast_defaulted net lat lon = get_forecast net lat lon 7)
    ∧ (∀ (net : Network) (st : String),
        get_location_defaulted net st = get_location net st 10)
    ∧ buildForecastUrl ⟨"0"⟩ ⟨"0"⟩ defaultForecastDays
        = "https://api.open-meteo.com/v1/forecast?latitude=0&longitude=0&"
          ++ "forecast_days=7"
          ++ "&daily=temperature_2m_max,temperature_2m_min,precipitation_sum,rain_sum,snowfall_sum,wind_speed_10m_max,wind_gusts_10m_max,wind_direction_10m_dominant,weathercode,sunrise,sunset&timezone=auto" :=
  ⟨rfl, rfl, fun _ _ _ => rfl, fun _ _ => rfl, by decide⟩

-- ### Claim C10: a falsy decoded body yields the failure sentence

/-- C10: if the fetch succeeds but the decoded body is falsy (such as the
empty object), every tool returns its failure sentence, because the
success branch is guarded by truthiness of the data. -/
theorem spec_c10_falsy_body :
    (∀ (net : Network) (lat lon : PyFloat) (j : Json),
      (make_openmeteo_request (net (buildCurrentWeatherUrl lat lon))).1 = some j →
      j.truthy = false → get_current_weather net lat lon = currentWeatherFailText)
    ∧ (∀ (net : Network) (lat lon : PyFloat) (days : Int) (j : Json),
      (make_openmeteo_request (net (buildForecastUrl lat lon days))).1 = some j →
      j.truthy = false → get_forecast net lat lon days = forecastFailText)
    ∧ (∀ (net : Network) (st : String) (count : Int) (j : Json),
      (make_openmeteo_request (net (buildLocationUrl st count))).1 = some j →
      j.truthy = false → get_location net st count
        = "Unable to fetch location data for " ++ st)
    ∧ Json.truthy (Json.obj []) = false := by
  refine ⟨?_, ?_, ?_, rfl⟩
  · intro net lat lon j h ht
    unfold get_current_weather
    rw [h]
    simp [ht]
  · intro net lat lon days j h ht
    unfold get_forecast
    rw [h]
    simp [ht]
  · intro net st count j h ht
    unfold get_location
    rw [h]
    simp [ht]

/-- Witness for C10: a stubbed fetch success with body the empty object
makes get_current_weather return its failure sentence. -/
theorem spec_c10_witness :
    get_current_weather emptyObjNet ⟨"52.52"⟩ ⟨"13.405"⟩ = currentWeatherFailText :=
  spec_c10_falsy_body.1 emptyObjNet ⟨"52.52"⟩ ⟨"13.405"⟩ (Json.obj []) rfl rfl

-- ### Claim C1 (corrected): round-trip of the returned text

/-- C1 counterexample: on a stubbed fetch success whose body is the
well-formed JSON value given by the empty object, the returned text of
get_current_weather does not parse back to that value (it is the failure
sentence), so the round-trip claim fails for falsy bodies. -/
theorem spec_c1_counterexample :
    (make_openmeteo_request (emptyObjNet (buildCurrentWeatherUrl ⟨"52.52"⟩ ⟨"13.405"⟩))).1
      = some (Json.obj [])
    ∧ Json.parse (get_current_weather emptyObjNet ⟨"52.52"⟩ ⟨"13.405"⟩) ≠ some (Json.obj []) := by
  refine ⟨rfl, ?_⟩
  have h : Json.parse (get_current_weather emptyObjNet ⟨"52.52"⟩ ⟨"13.405"⟩) = none := rfl
  simp [h]

-- ### Digit strings: inversion lemmas

/-- natCharsAux ignores its fuel as long as the fuel dominates n. -/
theorem natCharsAux_congr :
    ∀ (f g n : Nat), n ≤ f → n ≤ g → natCharsAux f n = natCharsAux g n := by
  intro f
  induction f with
  | zero =>
    intro g n hf _
    interval_cases n
    cases g with
    | zero => rfl
    | succ g => simp [natCharsAux]
  | succ f ih =>
    intro g n hf hg
    cases g with
    | zero =>
      interval_cases n
      simp [natCharsAux]
    | succ g =>
      simp only [natCharsAux]
      by_cases h10 : n < 10
      · simp [h10]
      · simp only [if_neg h10]
        have hdiv : n / 10 < n := by omega
        rw [ih g (n / 10) (by omega) (by omega)]

/-- The defining recursion of natChars, recovered from its worker. -/
theorem natChars_unfold (n : Nat) :
    natChars n = if n < 10 then [chOfDigit n] else natChars (n / 10) ++ [chOfDigit (n % 10)] := by
  by_cases h10 : n < 10
  · rw [if_pos h10]
    unfold natChars
    cases n with
    | zero => rfl
    | succ k => simp [natCharsAux, h10]
  · rw [if_neg h10]
    unfold natChars
    cases n with
    | zero => omega
    | succ k =>
      simp only [natCharsAux, if_neg h10]
      have hdiv : (k + 1) / 10 < k + 1 := Nat.div_lt_self (by omega) (by omega)
      rw [natCharsAux_congr k ((k + 1) / 10) ((k + 1) / 10) (by omega) (by omega)]

theorem chOfDigit_toNat (k : Nat) (h : k < 10) : (chOfDigit k).toNat = 48 + k := by
  interval_cases k <;> rfl

theorem chOfDigit_isDigit (k : Nat) (h : k < 10) : digitChar (chOfDigit k) = true := by
  interval_cases k <;> rfl

theorem natChars_ne_nil (n : Nat) : natChars n ≠ [] := by
  rw [natChars_unfold]
  by_cases h : n < 10 <;> simp [h]

theorem natChars_all_digits (n : Nat) : ∀ c ∈ natChars n, digitChar c = true := by
  induction n using Nat.strongRecOn with
  | _ n ih =>
    rw [natChars_unfold]
    by_cases h : n < 10
    · simpa [h] using chOfDigit_isDigit n h
    · intro c hc
      rw [if_neg h, List.mem_append] at hc
      rcases hc with hc | hc
      · exact ih (n / 10) (by omega) c hc
      · rw [List.mem_singleton] at hc
        subst hc
        exact chOfDigit_isDigit _ (Nat.mod_lt _ (by omega))

/-- A positive number never prints with a leading zero. -/
theorem natChars_head_ne_zero (n : Nat) (hn : 1 ≤ n) :
    ∀ c t, natChars n = c :: t → c.toNat ≠ 48 := by
  induction n using Nat.strongRecOn with
  | _ n ih =>
    intro c t hct
    rw [natChars_unfold] at hct
    by_cases h : n < 10
    · rw [if_pos h] at hct
      cases hct
      rw [chOfDigit_toNat n h]
      omega
    · rw [if_neg h] at hct
      obtain ⟨c0, t0, h0⟩ : ∃ c0 t0, natChars (n / 10) = c0 :: t0 := by
        cases hh : natChars (n / 10) with
        | nil => exact absurd hh (natChars_ne_nil _)
        | cons a b => exact ⟨a, b, rfl⟩
      rw [h0] at hct
      simp only [List.cons_append, List.cons.injEq] at hct
      rw [← hct.1]
      exact ih (n / 10) (Nat.div_lt_self (by omega) (by omega)) (by omega) c0 t0 h0

/-- A number of at least two digits is at least ten. -/
theorem natChars_two_digits (n : Nat) (c : Char) (t : List Char)
    (h : natChars n = c :: t) (ht : t ≠ []) : 10 ≤ n := by
  by_contra hlt
  rw [natChars_unfold, if_pos (by omega)] at h
  cases h
  exact ht rfl

theorem digitsVal_append_digit (ds : List Char) (d : Char) :
    digitsVal (ds ++ [d]) = digitsVal ds * 10 + (d.toNat - 48) := by
  simp [digitsVal, List.foldl_append]

theorem digitsVal_natChars (m : Nat) : digitsVal (natChars m) = m := by
  induction m using Nat.strongRecOn with
  | _ m ih =>
    rw [natChars_unfold]
    by_cases h : m < 10
    · simp only [if_pos h, digitsVal, List.foldl_cons, List.foldl_nil]
      rw [chOfDigit_toNat m h]
      omega
    · rw [if_neg h, digitsVal_append_digit, ih (m / 10) (by omega),
        chOfDigit_toNat _ (Nat.mod_lt _ (by omega))]
      omega

/-- Zero padding on the left does not change the decoded value. -/
theorem digitsVal_replicate_zero (k : Nat) (ds : List Char) :
    digitsVal (List.replicate k '0' ++ ds) = digitsVal ds := by
  induction k with
  | zero => rfl
  | succ k ih =>
    have : List.replicate (k + 1) '0' ++ ds = '0' :: (List.replicate k '0' ++ ds) := by
      simp [List.replicate_succ]
    rw [this]
    simpa [digitsVal] using ih

-- ### The digit scanner

theorem digitSpan_stop (l : List Char) (h : numStop l = true) : digitSpan l = ([], l) := by
  cases l with
  | nil => rfl
  | cons c t =>
    simp only [numStop, Bool.not_eq_true', Bool.or_eq_false_iff] at h
    simp [digitSpan, h.1.1]

theorem digitSpan_cons_not (c : Char) (t : List Char) (h : digitChar c = false) :
    digitSpan (c :: t) = ([], c :: t) := by
  simp [digitSpan, h]

theorem digitSpan_run (ds : List Char) (hds : ∀ c ∈ ds, digitChar c = true)
    (rest : List Char) (hrest : digitSpan rest = ([], rest)) :
    digitSpan (ds ++ rest) = (ds, rest) := by
  induction ds with
  | nil => simpa only [List.nil_append] using hrest
  | cons d0 t0 ih =>
    have hd0 : digitChar d0 = true := hds d0 (List.mem_cons_self d0 t0)
    have ht0 := ih (fun y hy => hds y (List.mem_cons_of_mem d0 hy))
    simp [digitSpan, hd0, ht0]

-- ### Character classifications driving the parser dispatch

theorem digit_not_keyword (d : Char) (h : digitChar d = true) :
    d ≠ '-' ∧ d ≠ '+' ∧ d ≠ '.' ∧ d ≠ 'e' ∧ d ≠ 'E' ∧ d ≠ 'n' ∧ d ≠ 't' ∧ d ≠ 'f'
      ∧ d ≠ '"' ∧ d ≠ '[' ∧ d ≠ '{' ∧ d ≠ ']' ∧ d ≠ '}' ∧ wsChar d = false := by
  have hb : 48 ≤ d.toNat ∧ d.toNat ≤ 57 := by simpa [digitChar] using h
  refine ⟨?_, ?_, ?_, ?_, ?_, ?_, ?_, ?_, ?_, ?_, ?_, ?_, ?_, ?_⟩ <;>
    first
    | (intro hc
       subst hc
       exact absurd h (by decide))
    | (simp only [wsChar, Bool.or_eq_false_iff, decide_eq_false_iff_not]
       omega)

theorem numStop_not_exp (d : Char) (t : List Char) (h : numStop (d :: t) = true) :
    digitChar d = false ∧ d ≠ '.' ∧ d ≠ 'e' ∧ d ≠ 'E' := by
  simp only [numStop, Bool.not_eq_true', Bool.or_eq_false_iff,
    decide_eq_false_iff_not] at h
  obtain ⟨⟨⟨h1, h2⟩, h3⟩, h4⟩ := h
  refine ⟨h1, ?_, ?_, ?_⟩ <;>
    (intro hc
     subst hc
     simp_all)

-- ### Round-trip of numbers

theorem signedOf_true (n : Nat) : signedOf true n = -(n : Int) := rfl

theorem signedOf_false (n : Nat) : signedOf false n = (n : Int) := rfl

theorem natChars_cons (n : Nat) : ∃ d ds, natChars n = d :: ds := by
  cases h : natChars n with
  | nil => exact absurd h (natChars_ne_nil n)
  | cons d ds => exact ⟨d, ds, rfl⟩

theorem scanNumCore_int (neg : Bool) (I rest : List Char)
    (hdig : ∀ c ∈ I, digitChar c = true) (hne : I ≠ [])
    (hlz : ∀ d t, I = d :: t → t ≠ [] → d.toNat ≠ 48)
    (hr : numStop rest = true) :
    scanNumCore neg (I ++ rest) = some (.num (signedOf neg (digitsVal I)) 0, rest) := by
  obtain ⟨d, ds, rfl⟩ : ∃ d ds, I = d :: ds := by
    cases I with
    | nil => exact absurd rfl hne
    | cons d ds => exact ⟨d, ds, rfl⟩
  have hguard : ¬(d.toNat = 48 ∧ ds ≠ []) := by
    rintro ⟨h48, hds⟩
    exact hlz d ds rfl hds h48
  simp only [scanNumCore]
  rw [digitSpan_run _ hdig _ (digitSpan_stop _ hr)]
  cases rest with
  | nil => simp [hguard]
  | cons c t =>
    obtain ⟨hd, hdot, he, hE⟩ := numStop_not_exp c t hr
    simp [hguard, hdot, he, hE]

theorem scanNumCore_float (neg : Bool) (I F rest : List Char)
    (hdI : ∀ c ∈ I, digitChar c = true) (hneI : I ≠ [])
    (hlz : ∀ d t, I = d :: t → t ≠ [] → d.toNat ≠ 48)
    (hdF : ∀ c ∈ F, digitChar c = true) (hneF : F ≠ [])
    (hr : numStop rest = true) :
    scanNumCore neg (I ++ '.' :: (F ++ rest))
      = some (.num (signedOf neg (digitsVal (I ++ F))) F.length, rest) := by
  obtain ⟨d, ds, rfl⟩ : ∃ d ds, I = d :: ds := by
    cases I with
    | nil => exact absurd rfl hneI
    | cons d ds => exact ⟨d, ds, rfl⟩
  obtain ⟨f, fs, rfl⟩ : ∃ f fs, F = f :: fs := by
    cases F with
    | nil => exact absurd rfl hneF
    | cons f fs => exact ⟨f, fs, rfl⟩
  have hguard : ¬(d.toNat = 48 ∧ ds ≠ []) := by
    rintro ⟨h48, hds⟩
    exact hlz d ds rfl hds h48
  have hspanI : digitSpan ((d :: ds) ++ '.' :: ((f :: fs) ++ rest))
      = (d :: ds, '.' :: ((f :: fs) ++ rest)) :=
    digitSpan_run _ hdI _ (digitSpan_cons_not _ _ (by decide))
  simp only [scanNumCore]
  rw [hspanI]
  cases rest with
  | nil =>
    have hspanF : digitSpan (f :: fs) = (f :: fs, []) := by
      simpa using digitSpan_run (f :: fs) hdF [] (digitSpan_stop [] rfl)
    simp [hguard, hspanF]
  | cons c t =>
    have hspanF : digitSpan (f :: (fs ++ c :: t)) = (f :: fs, c :: t) := by
      simpa using digitSpan_run (f :: fs) hdF (c :: t) (digitSpan_stop _ hr)
    obtain ⟨hd, hdot, he, hE⟩ := numStop_not_exp c t hr
    simp [hguard, hspanF, hdot, he, hE]

/-- Decomposition of a rendered float: a sign, a digit run with no leading
zero, a point, and exactly fracDigits more digits, decoding back to the
absolute mantissa. -/
theorem numChars_float_parts (m : Int) (e : Nat) (he : e ≠ 0) :
    ∃ I F, numChars m e = (if m < 0 then ['-'] else []) ++ (I ++ '.' :: F)
      ∧ (∀ c ∈ I, digitChar c = true) ∧ I ≠ []
      ∧ (∀ d t, I = d :: t → t ≠ [] → d.toNat ≠ 48)
      ∧ (∀ c ∈ F, digitChar c = true) ∧ F ≠ [] ∧ F.length = e
      ∧ digitsVal (I ++ F) = m.natAbs := by
  have hds0 : natChars m.natAbs ≠ [] := natChars_ne_nil _
  have hlen0 : 1 ≤ (natChars m.natAbs).length := by
    cases h : natChars m.natAbs with
    | nil => exact absurd h hds0
    | cons a b => simp
  refine ⟨(List.replicate (e + 1 - (natChars m.natAbs).length) '0' ++ natChars m.natAbs).take
      ((List.replicate (e + 1 - (natChars m.natAbs).length) '0' ++ natChars m.natAbs).length - e),
    (List.replicate (e + 1 - (natChars m.natAbs).length) '0' ++ natChars m.natAbs).drop
      ((List.replicate (e + 1 - (natChars m.natAbs).length) '0' ++ natChars m.natAbs).length - e),
    ?_, ?_, ?_, ?_, ?_, ?_, ?_, ?_⟩
  · simp only [numChars, if_neg he]
    rw [List.append_assoc]
  · intro c hc
    have hc2 := List.take_subset _ _ hc
    rw [List.mem_append] at hc2
    rcases hc2 with hc2 | hc2
    · rw [List.eq_of_mem_replicate hc2]
      rfl
    · exact natChars_all_digits _ c hc2
  · have hL : e + 1 ≤ (List.replicate (e + 1 - (natChars m.natAbs).length) '0'
        ++ natChars m.natAbs).length := by
      rw [List.length_append, List.length_replicate]
      omega
    intro hnil
    have := congrArg List.length hnil
    rw [List.length_take] at this
    simp at this
    omega
  · intro d t hdt htne
    have hlt : (List.replicate (e + 1 - (natChars m.natAbs).length) '0'
        ++ natChars m.natAbs).length
        = (e + 1 - (natChars m.natAbs).length) + (natChars m.natAbs).length := by
      rw [List.length_append, List.length_replicate]
    have hItlen := congrArg List.length hdt
    rw [List.length_take, List.length_cons, hlt] at hItlen
    have htpos : 1 ≤ t.length := by
      cases t with
      | nil => exact absurd rfl htne
      | cons a b => simp
    have hp : e + 1 - (natChars m.natAbs).length = 0 := by omega
    rw [hp] at hdt
    simp only [List.replicate_zero, List.nil_append] at hdt
    have hL0 : e + 1 ≤ (natChars m.natAbs).length := by omega
    obtain ⟨c0, t0, h0⟩ := natChars_cons m.natAbs
    have hdc : d = c0 := by
      have h1 : (natChars m.natAbs).length - e = ((natChars m.natAbs).length - e - 1) + 1 := by
        omega
      rw [h1, h0, List.take_succ_cons] at hdt
      have := (List.cons.injEq c0 _ d t).mp hdt
      exact this.1.symm
    have habs : 10 ≤ m.natAbs := by
      apply natChars_two_digits m.natAbs c0 t0 h0
      intro ht0
      rw [h0, ht0] at hL0
      simp at hL0
      omega
    rw [hdc]
    exact natChars_head_ne_zero m.natAbs (by omega) c0 t0 h0
  · intro c hc
    have hc2 := List.drop_subset _ _ hc
    rw [List.mem_append] at hc2
    rcases hc2 with hc2 | hc2
    · rw [List.eq_of_mem_replicate hc2]
      rfl
    · exact natChars_all_digits _ c hc2
  · intro hnil
    have := congrArg List.length hnil
    rw [List.length_drop, List.length_append, List.length_replicate] at this
    simp at this
    omega
  · rw [List.length_drop, List.length_append, List.length_replicate]
    omega
  · rw [List.take_append_drop, digitsVal_replicate_zero, digitsVal_natChars]

/-- The number codec round-trip: scanNumber inverts the rendering of
json.dumps on any remainder that cannot extend the literal. -/
theorem scanNumber_numChars (m : Int) (e : Nat) (rest : List Char)
    (hr : numStop rest = true) :
    scanNumber (numChars m e ++ rest) = some (.num m e, rest) := by
  by_cases he : e = 0
  · subst he
    by_cases hm : m < 0
    · have harg : numChars m 0 ++ rest = '-' :: (natChars m.natAbs ++ rest) := by
        simp [numChars, intChars, hm]
      rw [harg]
      have hlz : ∀ d t, natChars m.natAbs = d :: t → t ≠ [] → d.toNat ≠ 48 := by
        intro d t hdt htne
        exact natChars_head_ne_zero m.natAbs (by omega) d t hdt
      rw [show scanNumber ('-' :: (natChars m.natAbs ++ rest))
          = scanNumCore true (natChars m.natAbs ++ rest) from rfl]
      rw [scanNumCore_int true _ rest (natChars_all_digits _) (natChars_ne_nil _) hlz hr]
      rw [digitsVal_natChars]
      have : signedOf true m.natAbs = m := by
        rw [signedOf_true]
        omega
      rw [this]
    · obtain ⟨d, ds, h0⟩ := natChars_cons m.natAbs
      have hdd : digitChar d = true :=
        natChars_all_digits m.natAbs d (h0 ▸ List.mem_cons_self d ds)
      obtain ⟨hdm, -⟩ := digit_not_keyword d hdd
      have harg : numChars m 0 ++ rest = d :: (ds ++ rest) := by
        simp [numChars, intChars, hm, h0]
      rw [harg]
      have hlz : ∀ d2 t, natChars m.natAbs = d2 :: t → t ≠ [] → d2.toNat ≠ 48 := by
        intro d2 t hdt htne
        have h10 := natChars_two_digits m.natAbs d2 t hdt htne
        exact natChars_head_ne_zero m.natAbs (by omega) d2 t hdt
      have hstep : scanNumber (d :: (ds ++ rest)) = scanNumCore false (d :: (ds ++ rest)) := by
        simp [scanNumber, hdm]
      rw [hstep, show d :: (ds ++ rest) = (d :: ds) ++ rest from rfl, ← h0]
      rw [scanNumCore_int false _ rest (natChars_all_digits _) (natChars_ne_nil _) hlz hr]
      rw [digitsVal_natChars]
      have : signedOf false m.natAbs = m := by
        rw [signedOf_false]
        omega
      rw [this]
  · obtain ⟨I, F, heq, hdI, hneI, hlz, hdF, hneF, hFlen, hval⟩ := numChars_float_parts m e he
    by_cases hm : m < 0
    · have harg : numChars m e ++ rest = '-' :: (I ++ '.' :: (F ++ rest)) := by
        rw [heq, if_pos hm]
        simp
      rw [harg]
      rw [show scanNumber ('-' :: (I ++ '.' :: (F ++ rest)))
          = scanNumCore true (I ++ '.' :: (F ++ rest)) from rfl]
      rw [scanNumCore_float true I F rest hdI hneI hlz hdF hneF hr]
      rw [hval, hFlen]
      have : signedOf true m.natAbs = m := by
        rw [signedOf_true]
        omega
      rw [this]
    · obtain ⟨d, ds, hI0⟩ : ∃ d ds, I = d :: ds := by
        cases I with
        | nil => exact absurd rfl hneI
        | cons d ds => exact ⟨d, ds, rfl⟩
      have hdd : digitChar d = true := hdI d (hI0 ▸ List.mem_cons_self d ds)
      obtain ⟨hdm, -⟩ := digit_not_keyword d hdd
      have harg : numChars m e ++ rest = d :: (ds ++ '.' :: (F ++ rest)) := by
        rw [heq, if_neg hm, hI0]
        simp
      rw [harg]
      have hstep : scanNumber (d :: (ds ++ '.' :: (F ++ rest)))
          = scanNumCore false (d :: (ds ++ '.' :: (F ++ rest))) := by
        simp [scanNumber, hdm]
      rw [hstep,
        show d :: (ds ++ '.' :: (F ++ rest)) = (d :: ds) ++ '.' :: (F ++ rest) from rfl, ← hI0]
      rw [scanNumCore_float false I F rest hdI hneI hlz hdF hneF hr]
      rw [hval, hFlen]
      have : signedOf false m.natAbs = m := by
        rw [signedOf_false]
        omega
      rw [this]

-- ### Round-trip of strings

/-- A Lean Char is a Unicode scalar value: below the surrogate range, or
between it and 0x110000. -/
theorem char_bounds (c : Char) : c.toNat < 55296 ∨ (57343 < c.toNat ∧ c.toNat < 1114112) := by
  have h := c.valid
  rcases h with h | ⟨h1, h2⟩
  · left
    have h3 : c.val < (55296 : UInt32) := h
    simpa [UInt32.lt_def, BitVec.lt_def, Char.toNat, UInt32.toNat] using h3
  · right
    constructor
    · have h3 : (57343 : UInt32) < c.val := h1
      simpa [UInt32.lt_def, BitVec.lt_def, Char.toNat, UInt32.toNat] using h3
    · have h3 : c.val < (1114112 : UInt32) := h2
      simpa [UInt32.lt_def, BitVec.lt_def, Char.toNat, UInt32.toNat] using h3

theorem char_toNat_inj (c d : Char) (h : c.toNat = d.toNat) : c = d := by
  apply Char.ext
  exact UInt32.toNat.inj h

theorem hexDigitVal_chOfHex (k : Nat) (h : k < 16) : hexDigitVal (chOfHex k) = some k := by
  interval_cases k <;> rfl

/-- One-step unfolding of the scanner at a backslash (definitional). -/
theorem scanString_bs (fuel : Nat) (acc rest : List Char) :
    scanString (fuel + 1) acc ('\\' :: rest)
      = (match decodeEscape rest with
        | some (d, r2) => scanString fuel (acc ++ [d]) r2
        | none => none) := rfl

/-- Decoding of a high-surrogate escape followed by a low-surrogate escape. -/
theorem decodeEscape_u_pair (a b c2 d s1 s2 a2 b2 c3 d2 : Char) (r : List Char)
    (va vb vc vd wa wb wc wd : Nat)
    (hva : hexDigitVal a = some va) (hvb : hexDigitVal b = some vb)
    (hvc : hexDigitVal c2 = some vc) (hvd : hexDigitVal d = some vd)
    (hwa : hexDigitVal a2 = some wa) (hwb : hexDigitVal b2 = some wb)
    (hwc : hexDigitVal c3 = some wc) (hwd : hexDigitVal d2 = some wd)
    (hs1 : s1.toNat = 92) (hs2 : s2.toNat = 117)
    (hhi : 55296 ≤ va * 4096 + vb * 256 + vc * 16 + vd
      ∧ va * 4096 + vb * 256 + vc * 16 + vd ≤ 56319)
    (hlo : 56320 ≤ wa * 4096 + wb * 256 + wc * 16 + wd
      ∧ wa * 4096 + wb * 256 + wc * 16 + wd ≤ 57343) :
    decodeEscape ('u' :: a :: b :: c2 :: d :: s1 :: s2 :: a2 :: b2 :: c3 :: d2 :: r)
      = some (Char.ofNat (65536 + (va * 4096 + vb * 256 + vc * 16 + vd - 55296) * 1024
          + (wa * 4096 + wb * 256 + wc * 16 + wd - 56320)), r) := by
  simp only [decodeEscape, if_pos (by decide : ('u' : Char).toNat = 117),
    hva, hvb, hvc, hvd]
  rw [if_pos hhi, if_pos (And.intro hs1 hs2)]
  simp only [hwa, hwb, hwc, hwd]
  rw [if_pos hlo]

/-- Scanning one escaped character undoes its escaping at the cost of one
unit of fuel. -/
theorem scanString_escChar (fuel : Nat) (c : Char) (acc r : List Char) :
    scanString (fuel + 1) acc (escChar c ++ r) = scanString fuel (acc ++ [c]) r := by
  by_cases h34 : c.toNat = 34
  · rw [char_toNat_inj c '"' (by rw [h34]; rfl)]
    rfl
  · by_cases h92 : c.toNat = 92
    · rw [char_toNat_inj c '\\' (by rw [h92]; rfl)]
      rfl
    · by_cases h8 : c.toNat = 8
      · rw [char_toNat_inj c (Char.ofNat 8) (by rw [h8]; rfl)]
        rfl
      · by_cases h9 : c.toNat = 9
        · rw [char_toNat_inj c (Char.ofNat 9) (by rw [h9]; rfl)]
          rfl
        · by_cases h10 : c.toNat = 10
          · rw [char_toNat_inj c (Char.ofNat 10) (by rw [h10]; rfl)]
            rfl
          · by_cases h12 : c.toNat = 12
            · rw [char_toNat_inj c (Char.ofNat 12) (by rw [h12]; rfl)]
              rfl
            · by_cases h13 : c.toNat = 13
              · rw [char_toNat_inj c (Char.ofNat 13) (by rw [h13]; rfl)]
                rfl
              · have e1 : escChar c =
                    if c.toNat < 32 then '\\' :: 'u' :: hex4 c.toNat
                    else if c.toNat < 127 then [c]
                    else if c.toNat < 65536 then '\\' :: 'u' :: hex4 c.toNat
                    else
                      '\\' :: 'u' :: hex4 (55296 + (c.toNat - 65536) / 1024)
                        ++ '\\' :: 'u' :: hex4 (56320 + (c.toNat - 65536) % 1024) := by
                  simp only [escChar, if_neg h34, if_neg h92, if_neg h8, if_neg h9,
                    if_neg h10, if_neg h12, if_neg h13]
                have ha := hexDigitVal_chOfHex (c.toNat / 4096 % 16) (Nat.mod_lt _ (by omega))
                have hb := hexDigitVal_chOfHex (c.toNat / 256 % 16) (Nat.mod_lt _ (by omega))
                have hc3 := hexDigitVal_chOfHex (c.toNat / 16 % 16) (Nat.mod_lt _ (by omega))
                have hd3 := hexDigitVal_chOfHex (c.toNat % 16) (Nat.mod_lt _ (by omega))
                by_cases h32 : c.toNat < 32
                · have harith : c.toNat / 4096 % 16 * 4096 + c.toNat / 256 % 16 * 256
                      + c.toNat / 16 % 16 * 16 + c.toNat % 16 = c.toNat := by omega
                  rw [e1, if_pos h32]
                  rw [show ('\\' :: 'u' :: hex4 c.toNat) ++ r
                      = '\\' :: 'u' :: chOfHex (c.toNat / 4096 % 16)
                        :: chOfHex (c.toNat / 256 % 16) :: chOfHex (c.toNat / 16 % 16)
                        :: chOfHex (c.toNat % 16) :: r from by simp [hex4]]
                  rw [scanString_bs]
                  simp only [decodeEscape, if_pos (by decide : ('u' : Char).toNat = 117),
                    ha, hb, hc3, hd3]
                  rw [harith]
                  rw [if_neg (by omega : ¬(55296 ≤ c.toNat ∧ c.toNat ≤ 56319))]
                  rw [if_neg (by omega : ¬(56320 ≤ c.toNat ∧ c.toNat ≤ 57343))]
                  rw [Char.ofNat_toNat]
                · by_cases h127 : c.toNat < 127
                  · have e2 : escChar c = [c] := by
                      rw [e1, if_neg h32, if_pos h127]
                    rw [e2, List.singleton_append]
                    simp only [scanString]
                    rw [if_neg h34, if_neg h92, if_pos (by omega : 32 ≤ c.toNat)]
                  · by_cases h65536 : c.toNat < 65536
                    · have harith : c.toNat / 4096 % 16 * 4096 + c.toNat / 256 % 16 * 256
                          + c.toNat / 16 % 16 * 16 + c.toNat % 16 = c.toNat := by omega
                      have hns : c.toNat < 55296 ∨ 57343 < c.toNat := by
                        rcases char_bounds c with hcb | hcb
                        · exact Or.inl hcb
                        · exact Or.inr hcb.1
                      rw [e1, if_neg h32, if_neg h127, if_pos h65536]
                      rw [show ('\\' :: 'u' :: hex4 c.toNat) ++ r
                          = '\\' :: 'u' :: chOfHex (c.toNat / 4096 % 16)
                            :: chOfHex (c.toNat / 256 % 16) :: chOfHex (c.toNat / 16 % 16)
                            :: chOfHex (c.toNat % 16) :: r from by simp [hex4]]
                      rw [scanString_bs]
                      simp only [decodeEscape, if_pos (by decide : ('u' : Char).toNat = 117),
                        ha, hb, hc3, hd3]
                      rw [harith]
                      rw [if_neg (by omega : ¬(55296 ≤ c.toNat ∧ c.toNat ≤ 56319))]
                      rw [if_neg (by omega : ¬(56320 ≤ c.toNat ∧ c.toNat ≤ 57343))]
                      rw [Char.ofNat_toNat]
                    · have hlt : c.toNat < 1114112 := by
                        rcases char_bounds c with hcb | hcb
                        · omega
                        · omega
                      have e2 : escChar c
                          = '\\' :: 'u' :: hex4 (55296 + (c.toNat - 65536) / 1024)
                            ++ '\\' :: 'u' :: hex4 (56320 + (c.toNat - 65536) % 1024) := by
                        rw [e1, if_neg h32, if_neg h127, if_neg h65536]
                      have ha2 := hexDigitVal_chOfHex
                        ((55296 + (c.toNat - 65536) / 1024) / 4096 % 16) (Nat.mod_lt _ (by omega))
                      have hb2 := hexDigitVal_chOfHex
                        ((55296 + (c.toNat - 65536) / 1024) / 256 % 16) (Nat.mod_lt _ (by omega))
                      have hc2 := hexDigitVal_chOfHex
                        ((55296 + (c.toNat - 65536) / 1024) / 16 % 16) (Nat.mod_lt _ (by omega))
                      have hd2 := hexDigitVal_chOfHex
                        ((55296 + (c.toNat - 65536) / 1024) % 16) (Nat.mod_lt _ (by omega))
                      have ha4 := hexDigitVal_chOfHex
                        ((56320 + (c.toNat - 65536) % 1024) / 4096 % 16) (Nat.mod_lt _ (by omega))
                      have hb4 := hexDigitVal_chOfHex
                        ((56320 + (c.toNat - 65536) % 1024) / 256 % 16) (Nat.mod_lt _ (by omega))
                      have hc4 := hexDigitVal_chOfHex
                        ((56320 + (c.toNat - 65536) % 1024) / 16 % 16) (Nat.mod_lt _ (by omega))
                      have hd4 := hexDigitVal_chOfHex
                        ((56320 + (c.toNat - 65536) % 1024) % 16) (Nat.mod_lt _ (by omega))
                      rw [e2]
                      rw [show ('\\' :: 'u' :: hex4 (55296 + (c.toNat - 65536) / 1024)
                            ++ '\\' :: 'u' :: hex4 (56320 + (c.toNat - 65536) % 1024)) ++ r
                          = '\\' :: 'u'
                            :: chOfHex ((55296 + (c.toNat - 65536) / 1024) / 4096 % 16)
                            :: chOfHex ((55296 + (c.toNat - 65536) / 1024) / 256 % 16)
                            :: chOfHex ((55296 + (c.toNat - 65536) / 1024) / 16 % 16)
                            :: chOfHex ((55296 + (c.toNat - 65536) / 1024) % 16)
                            :: '\\' :: 'u'
                            :: chOfHex ((56320 + (c.toNat - 65536) % 1024) / 4096 % 16)
                            :: chOfHex ((56320 + (c.toNat - 65536) % 1024) / 256 % 16)
                            :: chOfHex ((56320 + (c.toNat - 65536) % 1024) / 16 % 16)
                            :: chOfHex ((56320 + (c.toNat - 65536) % 1024) % 16) :: r from by
                        simp [hex4]]
                      rw [scanString_bs]
                      rw [decodeEscape_u_pair _ _ _ _ _ _ _ _ _ _ r _ _ _ _ _ _ _ _
                        ha2 hb2 hc2 hd2 ha4 hb4 hc4 hd4 (by decide) (by decide)
                        (by constructor <;> omega) (by constructor <;> omega)]
                      rw [show 65536
                          + ((55296 + (c.toNat - 65536) / 1024) / 4096 % 16 * 4096
                            + (55296 + (c.toNat - 65536) / 1024) / 256 % 16 * 256
                            + (55296 + (c.toNat - 65536) / 1024) / 16 % 16 * 16
                            + (55296 + (c.toNat - 65536) / 1024) % 16 - 55296) * 1024
                          + ((56320 + (c.toNat - 65536) % 1024) / 4096 % 16 * 4096
                            + (56320 + (c.toNat - 65536) % 1024) / 256 % 16 * 256
                            + (56320 + (c.toNat - 65536) % 1024) / 16 % 16 * 16
                            + (56320 + (c.toNat - 65536) % 1024) % 16 - 56320)
                          = c.toNat from by omega]
                      rw [Char.ofNat_toNat]


/-- Scanning a fully escaped body stops exactly at the closing quote. -/
theorem scanString_escBody (cs : List Char) : ∀ (fuel : Nat) (acc r : List Char),
    cs.length < fuel →
    scanString fuel acc (escBody cs ++ '"' :: r) = some (String.mk (acc ++ cs), r) := by
  induction cs with
  | nil =>
    intro fuel acc r hf
    cases fuel with
    | zero => omega
    | succ f =>
      simp [escBody, scanString, show (('"' : Char).toNat = 34) from rfl]
  | cons c cs ih =>
    intro fuel acc r hf
    cases fuel with
    | zero => omega
    | succ f =>
      have hlen : cs.length < f := by
        simp only [List.length_cons] at hf
        omega
      rw [escBody, List.append_assoc, scanString_escChar, ih f (acc ++ [c]) r hlen]
      simp

/-- The string codec round-trip. -/
theorem scanString_dumps (s : String) (fuel : Nat) (r : List Char)
    (hf : s.data.length < fuel) :
    scanString fuel [] (escBody s.data ++ '"' :: r) = some (s, r) := by
  rw [scanString_escBody s.data fuel [] r hf]
  rfl


-- ### Parser dispatch steps

theorem skipWs_cons_not (c : Char) (t : List Char) (h : wsChar c = false) :
    skipWs (c :: t) = c :: t := by
  simp [skipWs, h]

theorem parseValue_ws (fuel : Nat) (l : List Char) :
    parseValue fuel (' ' :: l) = parseValue fuel l := by
  cases fuel with
  | zero => rfl
  | succ f => rfl

theorem parseElems_ws (fuel : Nat) (l : List Char) :
    parseElems fuel (' ' :: l) = parseElems fuel l := by
  cases fuel with
  | zero => rfl
  | succ f =>
    simp only [parseElems]
    rw [parseValue_ws]

theorem parseMems_ws (fuel : Nat) (l : List Char) :
    parseMems fuel (' ' :: l) = parseMems fuel l := by
  cases fuel with
  | zero => rfl
  | succ f => rfl

/-- One-step unfolding of the value parser at an opening bracket. -/
theorem parseValue_lbracket (fuel : Nat) (r : List Char) :
    parseValue (fuel + 1) ('[' :: r)
      = (match skipWs r with
        | ']' :: r2 => some (.arr [], r2)
        | l2 =>
          match parseElems fuel l2 with
          | some (es, r2) => some (.arr es, r2)
          | none => none) := rfl

/-- One-step unfolding of the value parser at an opening brace. -/
theorem parseValue_lbrace (fuel : Nat) (r : List Char) :
    parseValue (fuel + 1) ('{' :: r)
      = (match skipWs r with
        | '}' :: r2 => some (.obj [], r2)
        | l2 =>
          match parseMems fuel l2 with
          | some (ms, r2) => some (.obj (dedupPairs ms), r2)
          | none => none) := rfl

/-- One-step unfolding of the value parser at a quote. -/
theorem parseValue_quote (fuel : Nat) (r : List Char) :
    parseValue (fuel + 1) ('"' :: r)
      = (match scanString (fuel + 1) [] r with
        | some (s, r2) => some (.str s, r2)
        | none => none) := rfl

/-- A value starting with a digit parses through the number scanner. -/
theorem parseValue_digit (fuel : Nat) (d : Char) (cs : List Char) (hd : digitChar d = true) :
    parseValue (fuel + 1) (d :: cs) = scanNumber (d :: cs) := by
  obtain ⟨hm, hp, hdot, he, hE, hn, ht, hf, hq, hlb, hlc, hrb, hrc, hws⟩ := digit_not_keyword d hd
  simp only [parseValue]
  rw [skipWs_cons_not d cs hws]
  simp [hn, ht, hf, hq, hlb, hlc, hd]

theorem parseValue_minus (fuel : Nat) (cs : List Char) :
    parseValue (fuel + 1) ('-' :: cs) = scanNumber ('-' :: cs) := rfl

/-- One-step unfolding of the element parser at successor fuel. -/
theorem parseElems_step (fuel : Nat) (l : List Char) :
    parseElems (fuel + 1) l
      = (match parseValue fuel l with
        | some (v, r) =>
          match skipWs r with
          | ',' :: r2 =>
            match parseElems fuel r2 with
            | some (vs, r3) => some (v :: vs, r3)
            | none => none
          | ']' :: r2 => some ([v], r2)
          | _ => none
        | none => none) := rfl

/-- One-step unfolding of the member parser at successor fuel. -/
theorem parseMems_step (fuel : Nat) (l : List Char) :
    parseMems (fuel + 1) l
      = (match skipWs l with
        | '"' :: r =>
          match scanString (fuel + 1) [] r with
          | some (k, r1) =>
            match skipWs r1 with
            | ':' :: r2 =>
              match parseValue fuel r2 with
              | some (v, r3) =>
                match skipWs r3 with
                | ',' :: r4 =>
                  match parseMems fuel r4 with
                  | some (ms, r5) => some ((k, v) :: ms, r5)
                  | none => none
                | '}' :: r4 => some ([(k, v)], r4)
                | _ => none
              | none => none
            | _ => none
          | none => none
        | _ => none) := rfl

-- ### Heads of serialized values

theorem escChar_length_pos (c : Char) : 1 ≤ (escChar c).length := by
  unfold escChar
  repeat' split
  all_goals simp

theorem escBody_length (cs : List Char) : cs.length ≤ (escBody cs).length := by
  induction cs with
  | nil => simp [escBody]
  | cons c t ih =>
    have := escChar_length_pos c
    simp only [escBody, List.length_append, List.length_cons]
    omega

/-- The head of a rendered number is a minus sign or a digit. -/
theorem numChars_head (m : Int) (e : Nat) :
    ∃ c t, numChars m e = c :: t ∧ (c = '-' ∨ digitChar c = true) := by
  by_cases he : e = 0
  · subst he
    by_cases hm : m < 0
    · exact ⟨'-', natChars m.natAbs, by simp [numChars, intChars, hm], Or.inl rfl⟩
    · obtain ⟨d, ds, h0⟩ := natChars_cons m.natAbs
      refine ⟨d, ds, by simp [numChars, intChars, hm, h0], Or.inr ?_⟩
      exact natChars_all_digits m.natAbs d (h0 ▸ List.mem_cons_self d ds)
  · obtain ⟨I, F, heq, hdI, hneI, hlz, hdF, hneF, hFlen, hval⟩ := numChars_float_parts m e he
    obtain ⟨d, ds, hI0⟩ : ∃ d ds, I = d :: ds := by
      cases I with
      | nil => exact absurd rfl hneI
      | cons d ds => exact ⟨d, ds, rfl⟩
    by_cases hm : m < 0
    · exact ⟨'-', I ++ '.' :: F, by rw [heq, if_pos hm]; rfl, Or.inl rfl⟩
    · refine ⟨d, ds ++ '.' :: F, ?_, Or.inr (hdI d (hI0 ▸ List.mem_cons_self d ds))⟩
      rw [heq, if_neg hm, hI0]
      simp

/-- Every rendered value begins with a non-whitespace character that closes
neither an array nor an object. -/
theorem dumpsL_cons (j : Json) :
    ∃ d u, dumpsL j = d :: u ∧ wsChar d = false ∧ d ≠ ']' ∧ d ≠ '}' := by
  cases j with
  | null => refine ⟨'n', _, rfl, rfl, by decide, by decide⟩
  | bool b =>
    cases b with
    | true => refine ⟨'t', _, rfl, rfl, by decide, by decide⟩
    | false => refine ⟨'f', _, rfl, rfl, by decide, by decide⟩
  | str s => refine ⟨'"', _, rfl, rfl, by decide, by decide⟩
  | arr es => refine ⟨'[', _, rfl, rfl, by decide, by decide⟩
  | obj ms => refine ⟨'{', _, rfl, rfl, by decide, by decide⟩
  | num m e =>
    obtain ⟨d, u, hct, hc⟩ := numChars_head m e
    rcases hc with hc | hc
    · subst hc
      exact ⟨'-', u, by simp [dumpsL, hct], rfl, by decide, by decide⟩
    · obtain ⟨h1, h2, h3, h4, h5, h6, h7, h8, h9, h10, h11, h12, h13, h14⟩ :=
        digit_not_keyword d hc
      exact ⟨d, u, by simp [dumpsL, hct], h14, h12, h13⟩

theorem skipWs_dumpsL (j : Json) (x : List Char) :
    skipWs (dumpsL j ++ x) = dumpsL j ++ x := by
  obtain ⟨c, t, hct, hws, -, -⟩ := dumpsL_cons j
  rw [hct, List.cons_append, skipWs_cons_not c (t ++ x) hws]

-- ### Python dict construction from parsed members

theorem contains_append_str (xs ys : List String) (a : String) :
    (xs ++ ys).contains a = (xs.contains a || ys.contains a) := by
  induction xs with
  | nil => simp
  | cons a as ih =>
    simp [List.contains_cons, ih, Bool.or_assoc]

theorem keysFresh_mid (xs : List String) (k : String) (ys : List String)
    (h : keysFresh (xs ++ k :: ys) = true) : xs.contains k = false := by
  induction xs with
  | nil => rfl
  | cons a as ih =>
    simp only [List.cons_append, keysFresh, Bool.and_eq_true, Bool.not_eq_true'] at h
    obtain ⟨hx, hrest⟩ := h
    rw [List.append_eq, contains_append_str] at hx
    have hxk : (a == k) = false := by
      cases hb : a == k with
      | false => rfl
      | true =>
        have hxe : a = k := eq_of_beq hb
        subst hxe
        simp [List.contains_cons] at hx
    have hkx : (k == a) = false := by
      cases hb : k == a with
      | false => rfl
      | true =>
        have hke : k = a := eq_of_beq hb
        subst hke
        simp at hxk
    simp only [List.contains_cons, Bool.or_eq_false_iff]
    exact ⟨hkx, ih hrest⟩

theorem insertPair_append (ms : List (String × Json)) (k : String) (v : Json)
    (h : (ms.map Prod.fst).contains k = false) : insertPair ms k v = ms ++ [(k, v)] := by
  induction ms with
  | nil => rfl
  | cons p rest ih =>
    obtain ⟨k0, v0⟩ := p
    simp only [List.map_cons, List.contains_cons, Bool.or_eq_false_iff] at h
    obtain ⟨hk, hrest⟩ := h
    have hne : ¬ (k0 = k) := by
      intro hc
      subst hc
      simp at hk
    simp only [insertPair, if_neg hne, ih hrest, List.cons_append]

theorem dedup_go (ms : List (String × Json)) : ∀ (acc : List (String × Json)),
    keysFresh ((acc ++ ms).map Prod.fst) = true →
    ms.foldl (fun a kv => insertPair a kv.1 kv.2) acc = acc ++ ms := by
  induction ms with
  | nil =>
    intro acc h
    simp
  | cons p rest ih =>
    intro acc h
    obtain ⟨k, v⟩ := p
    have hk : ((acc.map Prod.fst).contains k) = false := by
      apply keysFresh_mid (acc.map Prod.fst) k (rest.map Prod.fst)
      simpa using h
    rw [List.foldl_cons]
    have hstep : insertPair acc k v = acc ++ [(k, v)] := insertPair_append acc k v hk
    rw [hstep, ih (acc ++ [(k, v)]) (by simpa using h)]
    simp

/-- On members with pairwise distinct keys, dict construction is the
identity. -/
theorem dedupPairs_fresh (ms : List (String × Json))
    (h : keysFresh (ms.map Prod.fst) = true) : dedupPairs ms = ms := by
  unfold dedupPairs
  rw [dedup_go ms [] (by simpa using h)]
  simp

theorem keys_insertPair (ms : List (String × Json)) (k : String) (v : Json) :
    (insertPair ms k v).map Prod.fst
      = if ((ms.map Prod.fst).contains k) = true then ms.map Prod.fst
        else ms.map Prod.fst ++ [k] := by
  induction ms with
  | nil => simp [insertPair]
  | cons p rest ih =>
    obtain ⟨k0, v0⟩ := p
    by_cases hk : k0 = k
    · subst hk
      simp [insertPair, List.contains_cons]
    · have hbk : (k == k0) = false := by
        cases hb : k == k0 with
        | false => rfl
        | true => exact absurd (eq_of_beq hb).symm hk
      simp only [insertPair, if_neg hk, List.map_cons, List.contains_cons, hbk,
        Bool.false_or, ih]
      by_cases hc : ((rest.map Prod.fst).contains k) = true
      · rw [if_pos hc, if_pos hc]
      · rw [if_neg hc, if_neg hc]
        rfl

theorem keysFresh_insertPair (ms : List (String × Json)) (k : String) (v : Json)
    (h : keysFresh (ms.map Prod.fst) = true) :
    keysFresh ((insertPair ms k v).map Prod.fst) = true := by
  induction ms with
  | nil => rfl
  | cons p rest ih =>
    obtain ⟨k0, v0⟩ := p
    simp only [List.map_cons, keysFresh, Bool.and_eq_true, Bool.not_eq_true'] at h
    obtain ⟨hc0, hrest⟩ := h
    by_cases hk : k0 = k
    · subst hk
      simp only [insertPair, if_pos rfl, List.map_cons, keysFresh,
        Bool.and_eq_true, Bool.not_eq_true']
      exact ⟨hc0, hrest⟩
    · simp only [insertPair, if_neg hk, List.map_cons, keysFresh,
        Bool.and_eq_true, Bool.not_eq_true']
      refine ⟨?_, ih hrest⟩
      rw [keys_insertPair]
      by_cases hck : ((rest.map Prod.fst).contains k) = true
      · rw [if_pos hck]
        exact hc0
      · rw [if_neg hck, contains_append_str, Bool.or_eq_false_iff]
        have hk0k : (k0 == k) = false := by
          cases hb : k0 == k with
          | false => rfl
          | true => exact absurd (eq_of_beq hb) hk
        refine ⟨hc0, ?_⟩
        rw [List.contains_cons, hk0k]
        rfl

theorem wfMems_insertPair (ms : List (String × Json)) (k : String) (v : Json)
    (hv : v.wf = true) (h : wfMems ms = true) : wfMems (insertPair ms k v) = true := by
  induction ms with
  | nil => simpa [insertPair, wfMems] using hv
  | cons p rest ih =>
    obtain ⟨k0, v0⟩ := p
    simp only [wfMems, Bool.and_eq_true] at h
    obtain ⟨hv0, hrest⟩ := h
    by_cases hk : k0 = k
    · subst hk
      simp [insertPair, wfMems, hv, hrest]
    · simp [insertPair, if_neg hk, wfMems, hv0, ih hrest]

theorem dedup_fold_keysFresh (ms : List (String × Json)) : ∀ acc : List (String × Json),
    keysFresh (acc.map Prod.fst) = true →
    keysFresh ((ms.foldl (fun a kv => insertPair a kv.1 kv.2) acc).map Prod.fst) = true := by
  induction ms with
  | nil =>
    intro acc h
    simpa using h
  | cons p rest ih =>
    intro acc h
    rw [List.foldl_cons]
    exact ih _ (keysFresh_insertPair acc p.1 p.2 h)

/-- Dict construction always yields pairwise distinct keys. -/
theorem dedupPairs_keysFresh (ms : List (String × Json)) :
    keysFresh ((dedupPairs ms).map Prod.fst) = true :=
  dedup_fold_keysFresh ms [] rfl

theorem dedup_fold_wfMems (ms : List (String × Json)) : ∀ acc : List (String × Json),
    wfMems ms = true → wfMems acc = true →
    wfMems (ms.foldl (fun a kv => insertPair a kv.1 kv.2) acc) = true := by
  induction ms with
  | nil =>
    intro acc _ h
    simpa using h
  | cons p rest ih =>
    intro acc hm h
    obtain ⟨k, v⟩ := p
    simp only [wfMems, Bool.and_eq_true] at hm
    rw [List.foldl_cons]
    exact ih _ hm.2 (wfMems_insertPair acc k v hm.1 h)

theorem dedupPairs_wfMems (ms : List (String × Json)) (hm : wfMems ms = true) :
    wfMems (dedupPairs ms) = true :=
  dedup_fold_wfMems ms [] hm rfl

-- ### Parsed values are well formed

theorem numOfExp_wf (neg : Bool) (ds : List Char) (fracLen : Nat) (z : Int) :
    (numOfExp neg ds fracLen z).wf = true := by
  unfold numOfExp
  dsimp only
  split <;> rfl

theorem scanExp_wf (neg : Bool) (ds : List Char) (fracLen : Nat) (l : List Char)
    (j : Json) (r : List Char) (h : scanExp neg ds fracLen l = some (j, r)) :
    j.wf = true := by
  simp only [scanExp] at h
  repeat' split at h
  all_goals try contradiction
  all_goals
    simp only [Option.some.injEq, Prod.mk.injEq] at h
  all_goals rw [← h.1]
  all_goals exact numOfExp_wf _ _ _ _

theorem scanNumCore_wf (neg : Bool) (l1 : List Char) (j : Json) (r : List Char)
    (h : scanNumCore neg l1 = some (j, r)) : j.wf = true := by
  simp only [scanNumCore] at h
  repeat' split at h
  all_goals try contradiction
  all_goals first
    | exact scanExp_wf _ _ _ _ _ _ h
    | (simp only [Option.some.injEq, Prod.mk.injEq] at h
       rw [← h.1]
       rfl)

theorem scanNumber_wf (l : List Char) (j : Json) (r : List Char)
    (h : scanNumber l = some (j, r)) : j.wf = true := by
  simp only [scanNumber] at h
  split at h
  · exact scanNumCore_wf _ _ _ _ h
  · exact scanNumCore_wf _ _ _ _ h

/-- At every fuel level, each of the three parsing functions only produces
well-formed output (objects with pairwise distinct keys, recursively). -/
theorem parse_wf_all : ∀ fuel : Nat,
    (∀ l j r, parseValue fuel l = some (j, r) → j.wf = true) ∧
    (∀ l es r, parseElems fuel l = some (es, r) → wfElems es = true) ∧
    (∀ l ms r, parseMems fuel l = some (ms, r) → wfMems ms = true) := by
  intro fuel
  induction fuel with
  | zero =>
    refine ⟨?_, ?_, ?_⟩ <;> intro l a r h <;>
      simp [parseValue, parseElems, parseMems] at h
  | succ f ih =>
    obtain ⟨ihV, ihE, ihM⟩ := ih
    refine ⟨?_, ?_, ?_⟩
    · intro l j r h
      simp only [parseValue] at h
      repeat' split at h
      all_goals try contradiction
      all_goals first
        | exact scanNumber_wf _ _ _ h
        | (simp only [Option.some.injEq, Prod.mk.injEq] at h
           rw [← h.1]
           first
             | rfl
             | (show wfElems _ = true
                exact ihE _ _ _ (by assumption))
             | (show (keysFresh _ && wfMems _) = true
                simp only [Bool.and_eq_true]
                exact ⟨dedupPairs_keysFresh _,
                  dedupPairs_wfMems _ (ihM _ _ _ (by assumption))⟩))
    · intro l es r h
      simp only [parseElems] at h
      repeat' split at h
      all_goals try contradiction
      all_goals
        simp only [Option.some.injEq, Prod.mk.injEq] at h
      all_goals rw [← h.1]
      all_goals simp only [wfElems, Bool.and_eq_true]
      all_goals first
        | exact ⟨ihV _ _ _ (by assumption), ihE _ _ _ (by assumption)⟩
        | exact ⟨ihV _ _ _ (by assumption), trivial⟩
    · intro l ms r h
      simp only [parseMems] at h
      repeat' split at h
      all_goals try contradiction
      all_goals
        simp only [Option.some.injEq, Prod.mk.injEq] at h
      all_goals rw [← h.1]
      all_goals simp only [wfMems, Bool.and_eq_true]
      all_goals first
        | exact ⟨ihV _ _ _ (by assumption), ihM _ _ _ (by assumption)⟩
        | exact ⟨ihV _ _ _ (by assumption), trivial⟩

-- ### The full codec round-trip

theorem numStop_rbracket (t : List Char) : numStop (']' :: t) = true := rfl

theorem numStop_rbrace (t : List Char) : numStop ('}' :: t) = true := rfl

theorem numStop_comma (t : List Char) : numStop (',' :: t) = true := rfl

/-- A rendered number at the head of the input dispatches to the number
scanner. -/
theorem parseValue_numChars (fuel : Nat) (m : Int) (e : Nat) (rest : List Char) :
    parseValue (fuel + 1) (numChars m e ++ rest) = scanNumber (numChars m e ++ rest) := by
  obtain ⟨c, t, hct, hc⟩ := numChars_head m e
  rw [hct, List.cons_append]
  rcases hc with hc | hc
  · subst hc
    exact parseValue_minus fuel (t ++ rest)
  · exact parseValue_digit fuel c (t ++ rest) hc

/-- A nonempty-array opener dispatches to the element parser when the next
character is not whitespace and not the closing bracket. -/
theorem parseValue_lbracket_cons (fuel : Nat) (c : Char) (cs : List Char)
    (hws : wsChar c = false) (hrb : c ≠ ']') :
    parseValue (fuel + 1) ('[' :: c :: cs)
      = (match parseElems fuel (c :: cs) with
        | some (es, r2) => some (.arr es, r2)
        | none => none) := by
  rw [parseValue_lbracket, skipWs_cons_not c cs hws]
  simp [hrb]

theorem parseValue_lbracket_elems (fuel : Nat) (e : Json) (es : List Json)
    (tail : List Char) :
    parseValue (fuel + 1) ('[' :: (dumpsElems (e :: es) ++ ']' :: tail))
      = (match parseElems fuel (dumpsElems (e :: es) ++ ']' :: tail) with
        | some (es2, r2) => some (.arr es2, r2)
        | none => none) := by
  obtain ⟨c, t, hct, hws, hrb, hrc⟩ := dumpsL_cons e
  have hE : dumpsElems (e :: es) ++ ']' :: tail
      = c :: (t ++ (dumpsElemsTail es ++ ']' :: tail)) := by
    simp only [dumpsElems, hct, List.cons_append, List.append_assoc]
  rw [hE, parseValue_lbracket_cons fuel c _ hws hrb]

theorem parseValue_lbrace_mems (fuel : Nat) (k : String) (v : Json)
    (ms : List (String × Json)) (tail : List Char) :
    parseValue (fuel + 1) ('{' :: (dumpsMembers ((k, v) :: ms) ++ '}' :: tail))
      = (match parseMems fuel (dumpsMembers ((k, v) :: ms) ++ '}' :: tail) with
        | some (ms2, r2) => some (.obj (dedupPairs ms2), r2)
        | none => none) := by
  have h1 : dumpsMembers ((k, v) :: ms) ++ '}' :: tail
      = '"' :: (escBody k.data
          ++ '"' :: ':' :: ' ' :: (dumpsL v ++ (dumpsMembersTail ms ++ '}' :: tail))) := by
    simp only [dumpsMembers, List.cons_append, List.append_assoc]
  rw [h1]
  rfl

/-- One-step unfolding of the member parser at a quote. -/
theorem parseMems_quote (fuel : Nat) (X : List Char) :
    parseMems (fuel + 1) ('"' :: X)
      = (match scanString (fuel + 1) [] X with
        | some (k, r1) =>
          match skipWs r1 with
          | ':' :: r2 =>
            match parseValue fuel r2 with
            | some (v, r3) =>
              match skipWs r3 with
              | ',' :: r4 =>
                match parseMems fuel r4 with
                | some (ms, r5) => some ((k, v) :: ms, r5)
                | none => none
              | '}' :: r4 => some ([(k, v)], r4)
              | _ => none
            | none => none
          | _ => none
        | none => none) := rfl

mutual
/-- The decoder inverts the encoder on any well-formed value, given enough
fuel and a remainder that cannot extend a trailing number literal. -/
theorem rt_value : ∀ (j : Json) (fuel : Nat) (rest : List Char),
    j.wf = true → (dumpsL j).length < fuel → numStop rest = true →
    parseValue fuel (dumpsL j ++ rest) = some (j, rest)
  | .null, fuel, rest, _, hfuel, _ => by
    cases fuel with
    | zero => exact absurd hfuel (by omega)
    | succ f => rfl
  | .bool true, fuel, rest, _, hfuel, _ => by
    cases fuel with
    | zero => exact absurd hfuel (by omega)
    | succ f => rfl
  | .bool false, fuel, rest, _, hfuel, _ => by
    cases fuel with
    | zero => exact absurd hfuel (by omega)
    | succ f => rfl
  | .num m e, fuel, rest, _, hfuel, hstop => by
    cases fuel with
    | zero => exact absurd hfuel (by omega)
    | succ f =>
      simp only [dumpsL]
      rw [parseValue_numChars]
      exact scanNumber_numChars m e rest hstop
  | .str s, fuel, rest, _, hfuel, _ => by
    cases fuel with
    | zero => exact absurd hfuel (by omega)
    | succ f =>
      have hlen : s.data.length < f + 1 := by
        have h1 := escBody_length s.data
        simp only [dumpsL, List.length_cons, List.length_append, List.length_nil] at hfuel
        omega
      simp only [dumpsL, List.cons_append, List.append_assoc, List.nil_append]
      rw [parseValue_quote, scanString_dumps s (f + 1) rest hlen]
  | .arr [], fuel, rest, _, hfuel, _ => by
    cases fuel with
    | zero => exact absurd hfuel (by omega)
    | succ f => rfl
  | .arr (e :: es2), fuel, rest, hwf, hfuel, _ => by
    cases fuel with
    | zero => exact absurd hfuel (by omega)
    | succ f =>
      have hwfE : wfElems (e :: es2) = true := hwf
      have hfE : (dumpsElems (e :: es2)).length + 1 < f := by
        simp only [dumpsL, List.length_cons, List.length_append, List.length_nil] at hfuel
        omega
      simp only [dumpsL, List.cons_append, List.append_assoc, List.nil_append]
      rw [parseValue_lbracket_elems f e es2 rest, rt_elems e es2 f rest hwfE hfE]
  | .obj [], fuel, rest, _, hfuel, _ => by
    cases fuel with
    | zero => exact absurd hfuel (by omega)
    | succ f => rfl
  | .obj ((k, v) :: ms2), fuel, rest, hwf, hfuel, _ => by
    cases fuel with
    | zero => exact absurd hfuel (by omega)
    | succ f =>
      have h2 : keysFresh (((k, v) :: ms2).map Prod.fst) = true
          ∧ wfMems ((k, v) :: ms2) = true := by
        simpa [Json.wf, Bool.and_eq_true] using hwf
      have hfM : (dumpsMembers ((k, v) :: ms2)).length + 1 < f := by
        simp only [dumpsL, List.length_cons, List.length_append, List.length_nil] at hfuel
        omega
      simp only [dumpsL, List.cons_append, List.append_assoc, List.nil_append]
      rw [parseValue_lbrace_mems f k v ms2 rest, rt_mems k v ms2 f rest h2.2 hfM]
      show some (Json.obj (dedupPairs ((k, v) :: ms2)), rest)
        = some (Json.obj ((k, v) :: ms2), rest)
      rw [dedupPairs_fresh _ h2.1]
termination_by j _ _ _ _ _ => sizeOf j

/-- The element parser inverts the element serializer on nonempty lists. -/
theorem rt_elems : ∀ (e : Json) (es : List Json) (fuel : Nat) (rest : List Char),
    wfElems (e :: es) = true → (dumpsElems (e :: es)).length + 1 < fuel →
    parseElems fuel (dumpsElems (e :: es) ++ ']' :: rest) = some (e :: es, rest)
  | e, [], fuel, rest, hwf, hfuel => by
    cases fuel with
    | zero => exact absurd hfuel (by omega)
    | succ f =>
      have hwfe : e.wf = true ∧ wfElems ([] : List Json) = true := by
        simpa [wfElems, Bool.and_eq_true] using hwf
      have hl : (dumpsL e).length < f := by
        have h0 : (dumpsElems [e]).length = (dumpsL e).length := by
          simp [dumpsElems, dumpsElemsTail]
        omega
      have h1 : dumpsElems [e] ++ ']' :: rest = dumpsL e ++ ']' :: rest := by
        simp [dumpsElems, dumpsElemsTail]
      rw [parseElems_step, h1, rt_value e f (']' :: rest) hwfe.1 hl (numStop_rbracket rest)]
      rfl
  | e, x :: xs, fuel, rest, hwf, hfuel => by
    cases fuel with
    | zero => exact absurd hfuel (by omega)
    | succ f =>
      have hwfe : e.wf = true ∧ wfElems (x :: xs) = true := by
        simpa [wfElems, Bool.and_eq_true] using hwf
      have hlen2 : (dumpsElems (e :: x :: xs)).length
          = (dumpsL e).length + 2 + (dumpsElems (x :: xs)).length := by
        simp only [dumpsElems, dumpsElemsTail, List.length_append, List.length_cons]
        omega
      obtain ⟨c, t, hct, -, -, -⟩ := dumpsL_cons e
      have hce : 1 ≤ (dumpsL e).length := by
        rw [hct]
        simp
      have hl : (dumpsL e).length < f := by omega
      have hxlen : (dumpsElems (x :: xs)).length + 1 < f := by omega
      have h1 : dumpsElems (e :: x :: xs) ++ ']' :: rest
          = dumpsL e ++ (',' :: ' ' :: (dumpsElems (x :: xs) ++ ']' :: rest)) := by
        simp only [dumpsElems, dumpsElemsTail, List.cons_append, List.append_assoc]
      rw [parseElems_step, h1,
        rt_value e f (',' :: ' ' :: (dumpsElems (x :: xs) ++ ']' :: rest))
          hwfe.1 hl (numStop_comma _)]
      show (match parseElems f (' ' :: (dumpsElems (x :: xs) ++ ']' :: rest)) with
        | some (vs, r3) => some (e :: vs, r3)
        | none => none) = some (e :: x :: xs, rest)
      rw [parseElems_ws, rt_elems x xs f rest hwfe.2 hxlen]
termination_by e es _ _ _ _ => sizeOf e + sizeOf es

/-- The member parser inverts the member serializer on nonempty lists. -/
theorem rt_mems : ∀ (k : String) (v : Json) (ms : List (String × Json))
    (fuel : Nat) (rest : List Char),
    wfMems ((k, v) :: ms) = true → (dumpsMembers ((k, v) :: ms)).length + 1 < fuel →
    parseMems fuel (dumpsMembers ((k, v) :: ms) ++ '}' :: rest) = some ((k, v) :: ms, rest)
  | k, v, [], fuel, rest, hwf, hfuel => by
    cases fuel with
    | zero => exact absurd hfuel (by omega)
    | succ f =>
      have hwfm : v.wf = true ∧ wfMems ([] : List (String × Json)) = true := by
        simpa [wfMems, Bool.and_eq_true] using hwf
      have hlenM : (dumpsMembers [(k, v)]).length
          = 1 + (escBody k.data).length + 3 + (dumpsL v).length
            + (dumpsMembersTail ([] : List (String × Json))).length := by
        simp only [dumpsMembers, List.length_append, List.length_cons]
        omega
      have hklen : k.data.length < f + 1 := by
        have h1 := escBody_length k.data
        omega
      have hvlen : (dumpsL v).length < f := by omega
      have h1 : dumpsMembers [(k, v)] ++ '}' :: rest
          = '"' :: (escBody k.data
              ++ '"' :: ':' :: ' ' :: (dumpsL v
                ++ (dumpsMembersTail ([] : List (String × Json)) ++ '}' :: rest))) := by
        simp only [dumpsMembers, List.cons_append, List.append_assoc]
      rw [h1, parseMems_quote, scanString_dumps k (f + 1) _ hklen]
      show (match parseValue f
          (' ' :: (dumpsL v ++ (dumpsMembersTail ([] : List (String × Json)) ++ '}' :: rest))) with
        | some (v2, r3) =>
          match skipWs r3 with
          | ',' :: r4 =>
            match parseMems f r4 with
            | some (ms2, r5) => some ((k, v2) :: ms2, r5)
            | none => none
          | '}' :: r4 => some ([(k, v2)], r4)
          | _ => none
        | none => none) = some ([(k, v)], rest)
      rw [parseValue_ws]
      have h2 : dumpsMembersTail ([] : List (String × Json)) ++ '}' :: rest
          = '}' :: rest := rfl
      rw [h2, rt_value v f ('}' :: rest) hwfm.1 hvlen (numStop_rbrace rest)]
      rfl
  | k, v, (k2, v2) :: ms2, fuel, rest, hwf, hfuel => by
    cases fuel with
    | zero => exact absurd hfuel (by omega)
    | succ f =>
      have hwfm : v.wf = true ∧ wfMems ((k2, v2) :: ms2) = true := by
        simpa [wfMems, Bool.and_eq_true] using hwf
      have hlenM : (dumpsMembers ((k, v) :: (k2, v2) :: ms2)).length
          = 1 + (escBody k.data).length + 3 + (dumpsL v).length
            + (dumpsMembersTail ((k2, v2) :: ms2)).length := by
        simp only [dumpsMembers, List.length_append, List.length_cons]
        omega
      have hklen : k.data.length < f + 1 := by
        have h1 := escBody_length k.data
        omega
      have hvlen : (dumpsL v).length < f := by omega
      have hlenT : (dumpsMembersTail ((k2, v2) :: ms2)).length
          = 2 + (dumpsMembers ((k2, v2) :: ms2)).length := by
        simp only [dumpsMembersTail, dumpsMembers, List.length_append, List.length_cons]
        omega
      have htlen : (dumpsMembers ((k2, v2) :: ms2)).length + 1 < f := by omega
      have h1 : dumpsMembers ((k, v) :: (k2, v2) :: ms2) ++ '}' :: rest
          = '"' :: (escBody k.data
              ++ '"' :: ':' :: ' ' :: (dumpsL v
                ++ (dumpsMembersTail ((k2, v2) :: ms2) ++ '}' :: rest))) := by
        simp only [dumpsMembers, List.cons_append, List.append_assoc]
      rw [h1, parseMems_quote, scanString_dumps k (f + 1) _ hklen]
      show (match parseValue f
          (' ' :: (dumpsL v ++ (dumpsMembersTail ((k2, v2) :: ms2) ++ '}' :: rest))) with
        | some (v3, r3) =>
          match skipWs r3 with
          | ',' :: r4 =>
            match parseMems f r4 with
            | some (ms3, r5) => some ((k, v3) :: ms3, r5)
            | none => none
          | '}' :: r4 => some ([(k, v3)], r4)
          | _ => none
        | none => none) = some ((k, v) :: (k2, v2) :: ms2, rest)
      rw [parseValue_ws]
      have h2 : dumpsMembersTail ((k2, v2) :: ms2) ++ '}' :: rest
          = ',' :: ' ' :: (dumpsMembers ((k2, v2) :: ms2) ++ '}' :: rest) := by
        simp only [dumpsMembersTail, dumpsMembers, List.cons_append, List.append_assoc]
      rw [h2,
        rt_value v f (',' :: ' ' :: (dumpsMembers ((k2, v2) :: ms2) ++ '}' :: rest))
          hwfm.1 hvlen (numStop_comma _)]
      show (match parseMems f
          (' ' :: (dumpsMembers ((k2, v2) :: ms2) ++ '}' :: rest)) with
        | some (ms3, r5) => some ((k, v) :: ms3, r5)
        | none => none) = some ((k, v) :: (k2, v2) :: ms2, rest)
      rw [parseMems_ws, rt_mems k2 v2 ms2 f rest hwfm.2 htlen]
termination_by k v ms _ _ _ _ => sizeOf v + sizeOf ms
end

/-- json.loads inverts json.dumps on every well-formed value. -/
theorem parse_dumps (j : Json) (hwf : j.wf = true) : Json.parse (Json.dumps j) = some j := by
  have h := rt_value j ((dumpsL j).length + 1) [] hwf (by omega) rfl
  rw [List.append_nil] at h
  show (match parseValue ((dumpsL j).length + 1) (dumpsL j) with
    | some (j2, r) => if skipWs r = [] then some j2 else none
    | none => none) = some j
  rw [h]
  rfl

/-- Any value json.loads produces is well formed. -/
theorem parse_wf (s : String) (j : Json) (h : Json.parse s = some j) : j.wf = true := by
  simp only [Json.parse] at h
  split at h
  · split at h
    · have h2 : _ = j := Option.some.inj h
      subst h2
      exact (parse_wf_all _).1 _ _ _ (by assumption)
    · exact Option.noConfusion h
  · exact Option.noConfusion h

/-- Any decoded body the fetch helper hands to a tool is well formed. -/
theorem fetch_some_wf (o : FetchOutcome) (j : Json)
    (h : (make_openmeteo_request o).1 = some j) : j.wf = true := by
  cases o with
  | transportError m => exact Option.noConfusion h
  | response status body =>
    by_cases hs : 200 ≤ status ∧ status < 300
    · cases hp : Json.parse body with
      | none =>
        rw [show (make_openmeteo_request (.response status body)).1 = none from by
          simp [make_openmeteo_request, hs, hp]] at h
        exact Option.noConfusion h
      | some j2 =>
        have h2 : (make_openmeteo_request (.response status body)).1 = some j2 := by
          simp [make_openmeteo_request, hs, hp]
        rw [h2] at h
        have h3 : j2 = j := Option.some.inj h
        subst h3
        exact parse_wf body j2 hp
    · rw [show (make_openmeteo_request (.response status body)).1 = none from by
        simp [make_openmeteo_request, hs]] at h
      exact Option.noConfusion h

/-- C1 (amended): for each of the three tools, whenever the fetch of the
tool's URL succeeds with a decoded JSON body x and x is truthy (so the
`if not data` guard passes), the tool's returned text parses back to
exactly x: the serialize/parse round-trip is the identity on delivered
bodies. The truthiness hypothesis is required: see spec_c1_counterexample. -/
theorem spec_c1_round_trip :
    (∀ (net : Network) (latitude longitude : PyFloat) (x : Json),
      (make_openmeteo_request (net (buildCurrentWeatherUrl latitude longitude))).1 = some x →
      x.truthy = true →
      Json.parse (get_current_weather net latitude longitude) = some x)
    ∧ (∀ (net : Network) (latitude longitude : PyFloat) (days : Int) (x : Json),
      (make_openmeteo_request (net (buildForecastUrl latitude longitude days))).1 = some x →
      x.truthy = true →
      Json.parse (get_forecast net latitude longitude days) = some x)
    ∧ (∀ (net : Network) (search_term : String) (count : Int) (x : Json),
      (make_openmeteo_request (net (buildLocationUrl search_term count))).1 = some x →
      x.truthy = true →
      Json.parse (get_location net search_term count) = some x) := by
  refine ⟨?_, ?_, ?_⟩
  · intro net latitude longitude x h ht
    have hout : get_current_weather net latitude longitude = Json.dumps x := by
      unfold get_current_weather
      rw [h]
      simp [ht]
    rw [hout]
    exact parse_dumps x (fetch_some_wf _ x h)
  · intro net latitude longitude days x h ht
    have hout : get_forecast net latitude longitude days = Json.dumps x := by
      unfold get_forecast
      rw [h]
      simp [ht]
    rw [hout]
    exact parse_dumps x (fetch_some_wf _ x h)
  · intro net search_term count x h ht
    have hout : get_location net search_term count = Json.dumps x := by
      unfold get_location
      rw [h]
      simp [ht]
    rw [hout]
    exact parse_dumps x (fetch_some_wf _ x h)

theorem spec_c1_witness :
    Json.parse (get_current_weather berlinNet ⟨"52.52"⟩ ⟨"13.405"⟩) = some berlinJson :=
  spec_c1_round_trip.1 berlinNet ⟨"52.52"⟩ ⟨"13.405"⟩ berlinJson rfl rfl

end WeatherServer
